import Mathlib

/-!
# procmand: a shallow embedding of the launcher and the isolation entrypoint

The development embeds `src/core/src/main.c`, `src/core/src/process/helper.c`
and `src/core/src/process/isoproc.c`.

Every C function becomes a Lean function in the `Run` monad below: a run
produces the list of system and library calls it issued (each with the value
the call returned) and ends in an `Outcome`.  The values returned by the
kernel and by libc are inputs of the model: an oracle structure has one field
per call site of the source, so every combination of successes and failures
can be explored.

Progress output (`printf`, `log_info`, `log_error`, `perror`), `sleep`,
`strdup`, `memset` and the `free` of the duplicated `put_old` string are not
recorded in traces; the usage text of `print_usage` is.
-/

namespace Procmand

/-! ## Constants of the system headers -/

/-- Value of `EEXIST` in `errno.h`. -/
def EEXIST : Int := 17
/-- Value of `MS_BIND` in `sys/mount.h`. -/
def MS_BIND : Nat := 4096
/-- Value of `MS_REC` in `sys/mount.h`. -/
def MS_REC : Nat := 16384
/-- Value of `MS_PRIVATE` in `sys/mount.h`. -/
def MS_PRIVATE : Nat := 262144
/-- Value of `MNT_DETACH` in `sys/mount.h`. -/
def MNT_DETACH : Nat := 2
/-- Value of `SIGCHLD` in `signal.h`. -/
def SIGCHLD : Nat := 17
/-- Value of `CLONE_NEWNS` in `sched.h`. -/
def CLONE_NEWNS : Nat := 0x00020000
/-- Value of `CLONE_NEWUTS` in `sched.h`. -/
def CLONE_NEWUTS : Nat := 0x04000000
/-- Value of `CLONE_NEWPID` in `sched.h`. -/
def CLONE_NEWPID : Nat := 0x20000000
/-- Value of `EXIT_FAILURE` in `stdlib.h`. -/
def EXIT_FAILURE : Int := 1

/-! ## Data model (`process/process.h`, as used by the sources) -/

/-- One `(Key, Val)` entry of the declared environment (`env->env[i]`). -/
structure ProcessEnvVar where
  Key : String
  Val : String
  deriving DecidableEq, Repr

/-- The declared environment `struct ProcessEnv`: the array `env`, an ordered
sequence of pairs; its field `count` is the number of entries. -/
structure ProcessEnv where
  env : List ProcessEnvVar
  deriving DecidableEq, Repr

/-- The field `count` of `struct ProcessEnv`. -/
def ProcessEnv.count (e : ProcessEnv) : Nat := e.env.length

/-- The command of a job: `command` and its `args` vector. -/
structure ProcessJobCommand where
  command : String
  args : List String
  deriving DecidableEq, Repr

/-- The job of a process: `Name` and `Command`. -/
structure ProcessJob where
  Name : String
  Command : ProcessJobCommand
  deriving DecidableEq, Repr

/-- The handle `struct Process`.  `Rootfs` and `Env` are pointers that may be
`NULL` (`none`); `Stack` is a pointer, `0` standing for `NULL`. -/
structure Process where
  ContextDir : String
  Rootfs : Option String
  Env : Option ProcessEnv
  Job : ProcessJob
  Pid : Int
  Stack : Nat
  deriving DecidableEq, Repr

/-- The four pipes held by the handle: `fd` (control), `stdin_fd`,
`stdout_fd`, `stderr_fd`. -/
inductive PipeId where
  | fd
  | stdin_fd
  | stdout_fd
  | stderr_fd
  deriving DecidableEq, Repr

/-- What `waitpid` stores in `status`, as told apart by `WIFEXITED` and
`WIFSIGNALED`. -/
inductive WaitStatus where
  | exited (code : Nat)
  | signaled (sig : Nat)
  | stopped (sig : Nat)
  | continued
  deriving DecidableEq, Repr

/-- The macro `WIFEXITED`. -/
def WIFEXITED : WaitStatus → Bool
  | .exited _ => true
  | _ => false

/-- The macro `WIFSIGNALED`. -/
def WIFSIGNALED : WaitStatus → Bool
  | .signaled _ => true
  | _ => false

/-! ## Calls, traces and runs -/

/-- The system and library calls the sources issue, with their arguments.  A
pipe end is named by its pipe and its index (`0` read end, `1` write end). -/
inductive Call where
  | chdir (path : String)
  | mount (source : Option String) (target : String) (fstype : Option String)
      (flags : Nat) (data : Option String)
  | mkdir (path : String) (mode : Nat)
  | pivot_root (new_root : String) (put_old : String)
  | umount2 (target : String) (flags : Nat)
  | rmdir (path : String)
  | clearenv
  | setenv (name : String) (value : String) (overwrite : Int)
  | sethostname (name : String) (len : Nat)
  | fork
  | execvp (file : String) (argv : List String) (environ : List (String × String))
  | waitpid (pid : Int) (status : Option WaitStatus)
  | malloc (size : Nat)
  | free (ptr : Nat)
  | pipe (which : PipeId)
  | clone (flags : Nat) (stack_top : Nat)
  | close (which : PipeId) (index : Nat)
  | read (which : PipeId) (index : Nat) (count : Nat)
  | write (which : PipeId) (index : Nat) (buf : String) (count : Nat)
  | prepare_userns
  | printf (text : String)
  deriving DecidableEq, Repr

/-- A call together with the value it returned to the program. -/
structure Event where
  call : Call
  result : Int
  deriving DecidableEq, Repr

/-- How a run of a C function ends: it returns a value, the process leaves
through `exit(code)`, the process image is replaced by a successful `execvp`,
the behaviour is undefined (a write past the end of a buffer, a read past the
end of an array), or the run stays in a loop for ever. -/
inductive Outcome (α : Type) where
  | ret (a : α)
  | exit (code : Int)
  | execd
  | undefined
  | blocked
  deriving DecidableEq, Repr

/-- A run: the calls issued, in order, and how the run ended. -/
structure Run (α : Type) where
  trace : List Event
  out : Outcome α
  deriving DecidableEq, Repr

/-- A run that issues nothing and returns `a`. -/
def Run.pure {α : Type} (a : α) : Run α := ⟨[], .ret a⟩

/-- Sequencing: the second part runs only when the first returned. -/
def Run.bind {α β : Type} (x : Run α) (f : α → Run β) : Run β :=
  match x.out with
  | .ret a => ⟨x.trace ++ (f a).trace, (f a).out⟩
  | .exit c => ⟨x.trace, .exit c⟩
  | .execd => ⟨x.trace, .execd⟩
  | .undefined => ⟨x.trace, .undefined⟩
  | .blocked => ⟨x.trace, .blocked⟩

instance : Monad Run where
  pure := Run.pure
  bind := Run.bind

/-- Issue the call `c`; the oracle says it returns `r`. -/
def sys (c : Call) (r : Int) : Run Int := ⟨[⟨c, r⟩], .ret r⟩

/-- The process ends through `exit (code)`. -/
def exit {α : Type} (code : Int) : Run α := ⟨[], .exit code⟩

/-- Undefined behaviour is reached. -/
def undefinedBehaviour {α : Type} : Run α := ⟨[], .undefined⟩

/-! ## `process/helper.c` -/

/-- Modelled from the spec: `free_process` lives in `process/process.c`, which
is not among the sources.  Section 4.5 of the specification says the exit path
"releases every resource owned by the handle (stack buffer, any still-open
fds)"; the model releases the stack buffer recorded in the handle (`free` of
`proc->Stack` when it is not `NULL`).  The descriptors are left out: which of
them are still open is not recorded in the handle. -/
def free_process (proc : Process) : Run Unit :=
  if proc.Stack ≠ 0 then do
    let _ ← sys (.free proc.Stack) 0
    return ()
  else return ()

/-- The function `graceful_exit` of `helper.c`: release the handle, report
`msg`, leave with `exit_code`. -/
def graceful_exit {α : Type} (proc : Process) (msg : String) (exit_code : Int) : Run α := do
  free_process proc
  let _ := msg
  exit exit_code

/-! ## `process/isoproc.c` -/

/-- Values returned to the isolated init, one field per call site of
`isoproc.c`. -/
structure IsoOracle where
  /-- Line 55: `chdir(process->ContextDir)`. -/
  chdir_ctx : Int
  /-- Line 107: `mount(NULL, "/", NULL, MS_REC | MS_PRIVATE, NULL)`. -/
  mount_private : Int
  /-- Line 111: `mount(proc->Rootfs, proc->Rootfs, "ext4", MS_BIND, "")`. -/
  mount_bind : Int
  /-- Line 116: `chdir(proc->ContextDir)`. -/
  chdir_ctx2 : Int
  /-- Line 126: `mkdir(put_old, 0777)`. -/
  mkdir_put_old : Int
  /-- Line 132: `pivot_root(proc->Rootfs, put_old)`. -/
  pivot_root : Int
  /-- Line 138: `chdir("/")`. -/
  chdir_root : Int
  /-- Line 27: `mkdir("/proc", 0555)`. -/
  mkdir_proc : Int
  /-- Line 27: the value of `errno` after that `mkdir`. -/
  mkdir_proc_errno : Int
  /-- Line 31: `mount("proc", "/proc", "proc", 0, "")`. -/
  mount_proc : Int
  /-- Line 146: `umount2(".put_old", MNT_DETACH)`. -/
  umount2 : Int
  /-- Line 151: `rmdir(".put_old")`. -/
  rmdir : Int
  /-- Line 170: `clearenv()`. -/
  clearenv : Int
  /-- Line 176: `setenv` of the `i`-th declared pair. -/
  setenv : Nat → Int
  /-- Line 38: `sethostname("isoproc", 7)`. -/
  sethostname : Int
  /-- Line 65: `fork()`. -/
  fork : Int
  /-- Line 192: `execvp`; `none` when it succeeds and so never returns. -/
  execvp : Option Int
  /-- Line 78: for the successive `waitpid` calls, the value returned and what
  `status` holds afterwards. -/
  waitpid : List (Int × WaitStatus)

/-- The process environment (`environ`): a list of `name=value` entries. -/
abbrev Environ := List (String × String)

/-- The libc function `getenv`: the value of the first entry named `k`. -/
def getenv : Environ → String → Option String
  | [], _ => none
  | (k1, v1) :: rest, k => if k1 = k then some v1 else getenv rest k

/-- The effect of a successful libc `setenv(k, v, 1)`: the entry named `k` is
replaced, or a new entry is added at the end. -/
def setenv_update : Environ → String → String → Environ
  | [], k, v => [(k, v)]
  | (k1, v1) :: rest, k, v =>
    if k1 = k then (k, v) :: rest else (k1, v1) :: setenv_update rest k v

/-- Size of `char buffer[150]` in `prepare_mntns`. -/
def BUFFER_SIZE : Nat := 150

/-- The call `sprintf(buffer, "%s/%s", a, b)` on a buffer of `cap` bytes: the
text written and the value returned (the number of bytes written, the closing
NUL not counted).  `sprintf` does not know `cap`: when the text and its NUL do
not fit, it writes past the end of the buffer, which is undefined behaviour. -/
def sprintf (cap : Nat) (a b : String) : Run (String × Int) :=
  let text := a ++ "/" ++ b
  if text.utf8ByteSize + 1 ≤ cap then Run.pure (text, (text.utf8ByteSize : Int))
  else undefinedBehaviour

/-- The function `prepare_procfs` (lines 25-34). -/
def prepare_procfs (o : IsoOracle) (proc : Process) : Run Unit := do
  if (← sys (.mkdir "/proc" 0o555) o.mkdir_proc) = -1 ∧ o.mkdir_proc_errno ≠ EEXIST then
    graceful_exit proc "err mkdir proc" 1
  if (← sys (.mount (some "proc") "/proc" (some "proc") 0 (some "")) o.mount_proc) = -1 then
    graceful_exit proc "err mount" 1

/-- The function `prepare_utsns` (lines 37-39): the value `sethostname`
returns is dropped. -/
def prepare_utsns (o : IsoOracle) : Run Unit := do
  let _ ← sys (.sethostname "isoproc" "isoproc".utf8ByteSize) o.sethostname
  return ()

/-- The function `prepare_mntns` (lines 93-159).  It returns the handle, whose
`Rootfs` it has set. -/
def prepare_mntns (o : IsoOracle) (proc : Process) : Run Process := do
  let (buffer, n) ← sprintf BUFFER_SIZE proc.ContextDir "rootfs"
  if n < 0 then
    graceful_exit proc "error copying rootfs path to buf\n" 1
  let mntfs := buffer
  let proc := { proc with Rootfs := some mntfs }
  if (← sys (.mount none "/" none (MS_REC ||| MS_PRIVATE) none) o.mount_private) = -1 then
    graceful_exit proc "err shared propagation\n" 1
  if (← sys (.mount (some mntfs) mntfs (some "ext4") MS_BIND (some "")) o.mount_bind) = -1 then
    graceful_exit proc "error mounting - ms_bind" 1
  if (← sys (.chdir proc.ContextDir) o.chdir_ctx2) ≠ 0 then
    graceful_exit proc "error chdir" 1
  let (buffer, n) ← sprintf BUFFER_SIZE mntfs ".put_old"
  if n < 0 then
    graceful_exit proc "error copying put_old to buf\n" 1
  let put_old := buffer
  if (← sys (.mkdir put_old 0o777) o.mkdir_put_old) = -1 then
    graceful_exit proc "error creating the putold directory" 1
  if (← sys (.pivot_root mntfs put_old) o.pivot_root) = -1 then
    graceful_exit proc "error pivoting root" 1
  if (← sys (.chdir "/") o.chdir_root) = -1 then
    graceful_exit proc "error chdir to root" 1
  prepare_procfs o proc
  if (← sys (.umount2 ".put_old" MNT_DETACH) o.umount2) = -1 then
    graceful_exit proc "failed to umount put_old" 1
  if (← sys (.rmdir ".put_old") o.rmdir) = -1 then
    graceful_exit proc "rmdir" 1
  return proc

/-- The loop of `overwrite_env` (lines 175-179) at index `i`, over the entries
`env->env[i]`, ..., `env->env[count - 1]` still to be set, in the environment
`E` built so far. -/
def overwrite_env_loop (o : IsoOracle) (proc : Process) :
    List ProcessEnvVar → Nat → Environ → Run Environ
  | [], _, E => Run.pure E
  | kv :: rest, i, E => do
    if (← sys (.setenv kv.Key kv.Val 1) (o.setenv i)) ≠ 0 then
      graceful_exit proc "error setenv\n" 1
    overwrite_env_loop o proc rest (i + 1) (setenv_update E kv.Key kv.Val)

/-- The function `overwrite_env` (lines 162-183), run in the process
environment `E`; it returns the environment it leaves. -/
def overwrite_env (o : IsoOracle) (proc : Option Process) (E : Environ) : Run Environ :=
  match proc with
  | none => Run.pure E
  | some proc =>
    match proc.Env with
    | none => Run.pure E
    | some env => do
      if (← sys .clearenv o.clearenv) ≠ 0 then
        graceful_exit proc "error clearenv\n" 1
      overwrite_env_loop o proc env.env 0 []

/-- The function `execute_job` (lines 185-198), run in the process environment
`E`.  A successful `execvp` does not return: the run ends in `execd`. -/
def execute_job (o : IsoOracle) (proc : Process) (E : Environ) : Run Unit :=
  let job := proc.Job
  let cmd := job.Command
  match o.execvp with
  | none => ⟨[⟨.execvp cmd.command cmd.args E, 0⟩], .execd⟩
  | some r => do
    if (← sys (.execvp cmd.command cmd.args E) r) = -1 then
      graceful_exit proc "execvp failed" 1
    graceful_exit proc "success\n" 0

/-- The supervision loop of `isoproc` (lines 77-87), over what the successive
`waitpid` calls report.  When no report ends the loop it runs for ever. -/
def isoproc_loop (proc : Process) (pid : Int) : List (Int × WaitStatus) → Run Int
  | [] => ⟨[], .blocked⟩
  | (r, status) :: rest => do
    let _ ← sys (.waitpid pid (some status)) r
    if WIFEXITED status then
      graceful_exit proc "child exited successfully" 1
    else if WIFSIGNALED status then
      graceful_exit proc "error in child" 1
    isoproc_loop proc pid rest

/-- The function `isoproc` (lines 42-90), entered with the handle `p` in the
process environment `E`. -/
def isoproc (o : IsoOracle) (p : Process) (E : Environ) : Run Int := do
  let process := p
  if (← sys (.chdir process.ContextDir) o.chdir_ctx) ≠ 0 then
    graceful_exit process "error chdir to context directory\n" 1
  let process ← prepare_mntns o process
  let E ← overwrite_env o (some process) E
  prepare_utsns o
  let pid ← sys .fork o.fork
  if pid = -1 then
    graceful_exit process "error forking the job process\n" 1
  else if pid = 0 then do
    execute_job o process E
    return 0
  else
    isoproc_loop process pid o.waitpid

/-- An oracle in which every call of `isoproc.c` succeeds: the setup calls
return `0`, `fork` returns the job pid `7` to the parent, and the job is
reported to have exited with status `0`. -/
def allSucceed : IsoOracle where
  chdir_ctx := 0
  mount_private := 0
  mount_bind := 0
  chdir_ctx2 := 0
  mkdir_put_old := 0
  pivot_root := 0
  chdir_root := 0
  mkdir_proc := 0
  mkdir_proc_errno := 0
  mount_proc := 0
  umount2 := 0
  rmdir := 0
  clearenv := 0
  setenv := fun _ => 0
  sethostname := 0
  fork := 7
  execvp := none
  waitpid := [(7, .exited 0)]

/-- A handle as the parser leaves it for the job `echo hello` in `/ctx`. -/
def sampleProcess : Process where
  ContextDir := "/ctx"
  Rootfs := none
  Env := some ⟨[⟨"FOO", "bar"⟩]⟩
  Job := ⟨"hello", ⟨"echo", ["echo", "hello"]⟩⟩
  Pid := 0
  Stack := 0

/-! ## `main.c` -/

/-- Values returned to the launcher, one field per call site of
`start_process`, and the handle the external parser leaves. -/
structure LaunchOracle where
  /-- Line 28: the handle after `parse_process_yaml(process_yaml_loc, p)`. -/
  parse_process_yaml : String → Process → Process
  /-- Line 30: `chdir(p->ContextDir)`. -/
  chdir_ctx : Int
  /-- Line 35: the pointer `malloc(STACKSIZE)` returns. -/
  malloc : Nat
  /-- Line 37: `chdir(p->ContextDir)`. -/
  chdir_ctx2 : Int
  /-- Line 43: `pipe(p->fd)`. -/
  pipe_fd : Int
  /-- Line 43: `pipe(p->stdin_fd)`. -/
  pipe_stdin : Int
  /-- Line 43: `pipe(p->stdout_fd)`. -/
  pipe_stdout : Int
  /-- Line 43: `pipe(p->stderr_fd)`. -/
  pipe_stderr : Int
  /-- Line 48: `clone(isoproc, cmd_stack + STACKSIZE, clone_flags, p)`. -/
  clone : Int
  /-- Line 58: `close(p->stdin_fd[0])`. -/
  close_stdin : Int
  /-- Line 59: `close(p->stderr_fd[1])`. -/
  close_stderr : Int
  /-- Line 60: `close(p->stdout_fd[1])`. -/
  close_stdout : Int
  /-- Line 64: `read(p->fd[0], buf, 2)`. -/
  read : Int
  /-- Line 73: `write(p->fd[1], "OK", 2)`. -/
  write : Int
  /-- Line 78: `waitpid(pid, NULL, 0)`. -/
  waitpid : Int

/-- The condition of line 43, `pipe(p->fd) < 0 || pipe(p->stdin_fd) < 0 ||
pipe(p->stdout_fd) || pipe(p->stderr_fd)`, evaluated left to right, stopping
at the first disjunct that holds. -/
def pipes_fail (o : LaunchOracle) : Run Bool := do
  if (← sys (.pipe .fd) o.pipe_fd) < 0 then return true
  else if (← sys (.pipe .stdin_fd) o.pipe_stdin) < 0 then return true
  else if (← sys (.pipe .stdout_fd) o.pipe_stdout) ≠ 0 then return true
  else if (← sys (.pipe .stderr_fd) o.pipe_stderr) ≠ 0 then return true
  else return false

/-- The function `start_process` (lines 21-83).  `STACKSIZE` is a macro of a
header that is not among the sources and is taken as a parameter.  The external
`prepare_userns` is a call that returns and leaves the handle as it is. -/
def start_process (STACKSIZE : Nat) (o : LaunchOracle) (process_yaml_loc : String)
    (p : Process) : Run Process := do
  let p := o.parse_process_yaml process_yaml_loc p
  if (← sys (.chdir p.ContextDir) o.chdir_ctx) ≠ 0 then
    graceful_exit p "error chdir" 1
  let clone_flags := SIGCHLD ||| CLONE_NEWNS ||| CLONE_NEWPID ||| CLONE_NEWUTS
  let _ ← sys (.malloc STACKSIZE) o.malloc
  let cmd_stack := o.malloc
  if (← sys (.chdir p.ContextDir) o.chdir_ctx2) ≠ 0 then
    graceful_exit p "error chdir to context directory\n" 1
  if (← pipes_fail o) then
    graceful_exit p "error pipe\n" 1
  let pid ← sys (.clone clone_flags (cmd_stack + STACKSIZE)) o.clone
  if pid = -1 then
    let _ ← sys (.free cmd_stack) 0
    exit EXIT_FAILURE
  let p := { p with Pid := pid }
  let _ ← sys (.close .stdin_fd 0) o.close_stdin
  let _ ← sys (.close .stderr_fd 1) o.close_stderr
  let _ ← sys (.close .stdout_fd 1) o.close_stdout
  if (← sys (.read .fd 0 2) o.read) ≠ 2 then
    graceful_exit p "error reading pipe\n" 1
  let _ ← sys .prepare_userns 0
  let p := { p with Pid := pid }
  let p := { p with Stack := cmd_stack }
  if (← sys (.write .fd 1 "OK" 2) o.write) ≠ 2 then
    graceful_exit p "error writing to pipe\n" 1
  if (← sys (.waitpid pid none) o.waitpid) = -1 then
    graceful_exit p "waitpid failed\n" 1
  graceful_exit p "success\n" 0

/-- The function `print_usage` (lines 86-88). -/
def print_usage : Run Unit := do
  let text := "\nUsage: sudo ./procmand <filepath>\n"
  let _ ← sys (.printf text) text.utf8ByteSize
  return ()

/-- The handle `calloc(1, sizeof(struct Process))` returns: every field is
zero (`""` stands for a `NULL` string). -/
def zeroProcess : Process where
  ContextDir := ""
  Rootfs := none
  Env := none
  Job := ⟨"", ⟨"", []⟩⟩
  Pid := 0
  Stack := 0

/-- Values returned to `main`: the `fork` of line 100, the oracle of the
supervisor child, and for the successive `waitpid` calls of line 115 the value
returned and what `status` holds afterwards. -/
structure MainOracle where
  fork : Int
  launch : LaunchOracle
  waitpid : List (Int × WaitStatus)

/-- The loop of `main` (lines 113-123): it is left by `break` at the first
status for which `WIFEXITED` or `WIFSIGNALED` holds. -/
def main_loop (pid : Int) : List (Int × WaitStatus) → Run Unit
  | [] => ⟨[], .blocked⟩
  | (r, status) :: rest => do
    let _ ← sys (.waitpid pid (some status)) r
    if WIFEXITED status then
      return ()
    else if WIFSIGNALED status then
      return ()
    else
      main_loop pid rest

/-- The function `main` (lines 91-127).  The run is that of the process in
which `fork` returned `o.fork`: the supervisor child when it is `0`, the
process the shell started otherwise.  A returned value is the exit status. -/
def main (STACKSIZE : Nat) (o : MainOracle) (argc : Int) (argv : List String) : Run Int := do
  if argc < 2 then
    print_usage
    return 1
  let pid ← sys .fork o.fork
  if pid < 0 then
    exit 1
  else if pid = 0 then
    let p := zeroProcess
    let p ← start_process STACKSIZE o.launch (argv.getD 1 "") p
    free_process p
  else
    main_loop pid o.waitpid
  return 0

/-- The exit status of a process whose `main` ran as `r`, when it ended. -/
def exitStatus (r : Run Int) : Option Int :=
  match r.out with
  | .ret v => some v
  | .exit c => some c
  | _ => none

/-- A launcher oracle in which every call succeeds: the parser fills in
`sampleProcess`, `malloc` returns the address `4096`, `clone` returns the pid
`42`, the read and the write transfer 2 bytes. -/
def launchSucceeds : LaunchOracle where
  parse_process_yaml := fun _ _ => sampleProcess
  chdir_ctx := 0
  malloc := 4096
  chdir_ctx2 := 0
  pipe_fd := 0
  pipe_stdin := 0
  pipe_stdout := 0
  pipe_stderr := 0
  clone := 42
  close_stdin := 0
  close_stderr := 0
  close_stdout := 0
  read := 2
  write := 2
  waitpid := 42

/-! ## Vocabulary of the statements

Definitions used to state and prove the properties below: none of them is
part of the program. -/

/-- The run `r` with the event `e` issued first. -/
def emit {α : Type} (e : Event) (r : Run α) : Run α := ⟨e :: r.trace, r.out⟩

/-- The events of `free_process`: the release of the recorded stack. -/
def releaseOf (proc : Process) : List Event :=
  if proc.Stack ≠ 0 then [⟨.free proc.Stack, 0⟩] else []

/-- Every event of the run satisfies `P`. -/
structure AllEv {α : Type} (P : Event → Prop) (r : Run α) : Prop where
  all : ∀ e ∈ r.trace, P e

/-- The value the declarations `decls` give the name `k`: that of the last
declaration of `k`, in declaration order. -/
def lastDeclared : List ProcessEnvVar → String → Option String
  | [], _ => none
  | kv :: rest, k =>
    match lastDeclared rest k with
    | some v => some v
    | none => if kv.Key = k then some kv.Val else none

/-- Every call of `prepare_mntns` and `prepare_procfs` succeeds; the `mkdir` of
`/proc` may also report that the directory exists. -/
def mountCallsSucceed (o : IsoOracle) : Prop :=
  o.mount_private = 0 ∧ o.mount_bind = 0 ∧ o.chdir_ctx2 = 0 ∧ o.mkdir_put_old = 0 ∧
  o.pivot_root = 0 ∧ o.chdir_root = 0 ∧
  (o.mkdir_proc = 0 ∨ (o.mkdir_proc = -1 ∧ o.mkdir_proc_errno = EEXIST)) ∧
  o.mount_proc = 0 ∧ o.umount2 = 0 ∧ o.rmdir = 0

/-- Path resolution: the absolute path the relative path `rel` names from the
working directory `cwd`. -/
def resolveFrom (cwd rel : String) : String :=
  if cwd = "/" then "/" ++ rel else cwd ++ "/" ++ rel

/-- The effect of `pivot_root(new_root, put_old)` on names: the directory at
the absolute path `q` under the new root is the one `new_root ++ q` named
before the pivot. -/
def beforePivot (new_root q : String) : String := new_root ++ q

/-- The calls of `prepare_mntns`, in order, for the paths `rootfs` and
`put_old`. -/
def mountSequence (contextDir rootfs put_old : String) : List Call :=
  [ .mount none "/" none (MS_REC ||| MS_PRIVATE) none,
    .mount (some rootfs) rootfs (some "ext4") MS_BIND (some ""),
    .chdir contextDir,
    .mkdir put_old 0o777,
    .pivot_root rootfs put_old,
    .chdir "/",
    .mkdir "/proc" 0o555,
    .mount (some "proc") "/proc" (some "proc") 0 (some ""),
    .umount2 ".put_old" MNT_DETACH,
    .rmdir ".put_old" ]

/-- A `contextDir` of 134 bytes: `/` followed by 133 letters. -/
def longContextDir : String := "/" ++ String.mk (List.replicate 133 'a')

/-- No event satisfying `q` occurs in `tr` before an event satisfying `p` has
occurred. -/
def comesAfter (p q : Event → Prop) : List Event → Prop
  | [] => True
  | e :: rest => ¬ q e ∧ (p e ∨ comesAfter p q rest)

/-- The calls that create a process or need privilege: `fork`, `clone`,
`pipe`, `chdir`, `mount`, `pivot_root`. -/
def Call.createsOrPrivileged : Call → Bool
  | .fork => true
  | .clone _ _ => true
  | .pipe _ => true
  | .chdir _ => true
  | .mount _ _ _ _ _ => true
  | .pivot_root _ _ => true
  | _ => false

/-- The text `print_usage` prints. -/
def usageText : String := "\nUsage: sudo ./procmand <filepath>\n"

/-- The calls of a run of `start_process` in which every step is reached, in
order, with the values the oracle returns; `P` is the handle the parser
left. -/
def launchEvents (STACKSIZE : Nat) (o : LaunchOracle) (P : Process) : List Event :=
  [ ⟨.chdir P.ContextDir, o.chdir_ctx⟩,
    ⟨.malloc STACKSIZE, o.malloc⟩,
    ⟨.chdir P.ContextDir, o.chdir_ctx2⟩,
    ⟨.pipe .fd, o.pipe_fd⟩,
    ⟨.pipe .stdin_fd, o.pipe_stdin⟩,
    ⟨.pipe .stdout_fd, o.pipe_stdout⟩,
    ⟨.pipe .stderr_fd, o.pipe_stderr⟩,
    ⟨.clone (SIGCHLD ||| CLONE_NEWNS ||| CLONE_NEWPID ||| CLONE_NEWUTS) (o.malloc + STACKSIZE),
      o.clone⟩,
    ⟨.close .stdin_fd 0, o.close_stdin⟩,
    ⟨.close .stderr_fd 1, o.close_stderr⟩,
    ⟨.close .stdout_fd 1, o.close_stdout⟩,
    ⟨.read .fd 0 2, o.read⟩,
    ⟨.prepare_userns, 0⟩,
    ⟨.write .fd 1 "OK" 2, o.write⟩,
    ⟨.waitpid o.clone none, o.waitpid⟩ ]

/-- The event: the read of line 64 returned `n`. -/
def readReturned (n : Int) : Event := ⟨.read .fd 0 2, n⟩

/-- The event: the write of line 73 returned `n`. -/
def writeReturned (n : Int) : Event := ⟨.write .fd 1 "OK" 2, n⟩

/-- The call is a `waitpid`. -/
def Call.isWaitpid : Call → Bool
  | .waitpid _ _ => true
  | _ => false

/-- The call is a `write`. -/
def Call.isWrite : Call → Bool
  | .write _ _ _ _ => true
  | _ => false

/-- The order of the handshake, as a property of one run: `prepare_userns`
and any write come after the read that returned 2, a read that returned
something else ends the run with status 1 before them; `waitpid` comes after
the write that returned 2, a write that returned something else ends the run
with status 1 before it. -/
def handshakeOrder (r : Run Process) : Prop :=
  comesAfter (fun e => e = readReturned 2)
    (fun e => e.call = .prepare_userns ∨ e.call.isWrite = true) r.trace ∧
  (∀ n, n ≠ 2 → readReturned n ∈ r.trace →
    r.out = .exit 1 ∧ ∀ e ∈ r.trace, e.call ≠ .prepare_userns ∧ e.call.isWrite = false) ∧
  comesAfter (fun e => e = writeReturned 2) (fun e => e.call.isWaitpid = true) r.trace ∧
  (∀ n, n ≠ 2 → writeReturned n ∈ r.trace →
    r.out = .exit 1 ∧ ∀ e ∈ r.trace, e.call.isWaitpid = false)

/-- How many times the trace releases the buffer at `ptr`. -/
def releases (ptr : Nat) : List Event → Nat
  | [] => 0
  | e :: rest => (if e.call = .free ptr then 1 else 0) + releases ptr rest

/-- The `clone` of line 48 returned `n`. -/
def cloneReturned (STACKSIZE : Nat) (o : LaunchOracle) (n : Int) : Event :=
  ⟨.clone (SIGCHLD ||| CLONE_NEWNS ||| CLONE_NEWPID ||| CLONE_NEWUTS) (o.malloc + STACKSIZE), n⟩

/-- The release of the stack buffer, as a property of one run: never twice;
once when `clone` failed; once, as the last call, when the write of line 73 was
reached; after a `waitpid` that returned when the run exits with status 0;
with no `waitpid` in the run when the write was short; once, with status 1,
when `waitpid` returned -1. -/
def stackRelease (STACKSIZE : Nat) (o : LaunchOracle) (r : Run Process) : Prop :=
  releases o.malloc r.trace ≤ 1 ∧
  (cloneReturned STACKSIZE o (-1) ∈ r.trace → releases o.malloc r.trace = 1) ∧
  (∀ n, writeReturned n ∈ r.trace →
    releases o.malloc r.trace = 1 ∧ r.trace.getLast? = some ⟨.free o.malloc, 0⟩) ∧
  (r.out = .exit 0 → o.waitpid ≠ -1 ∧
    r.trace.dropLast.getLast? = some ⟨.waitpid o.clone none, o.waitpid⟩ ∧
    r.trace.getLast? = some ⟨.free o.malloc, 0⟩) ∧
  (∀ n, n ≠ 2 → writeReturned n ∈ r.trace → ∀ e ∈ r.trace, e.call.isWaitpid = false) ∧
  ((⟨.waitpid o.clone none, -1⟩ : Event) ∈ r.trace →
    r.out = .exit 1 ∧ releases o.malloc r.trace = 1)

/-- The event is a setup step of `isoproc` whose result the code examines, and
the step failed: the call returned -1 (for the `mkdir` of `/proc`: returned -1
for another reason than `EEXIST`). -/
def setupFailure (o : IsoOracle) (e : Event) : Prop :=
  match e.call with
  | .chdir _ => e.result = -1
  | .mount _ _ _ _ _ => e.result = -1
  | .mkdir path _ => e.result = -1 ∧ ¬ (path = "/proc" ∧ o.mkdir_proc_errno = EEXIST)
  | .pivot_root _ _ => e.result = -1
  | .umount2 _ _ => e.result = -1
  | .rmdir _ => e.result = -1
  | .clearenv => e.result = -1
  | .setenv _ _ _ => e.result = -1
  | _ => False

/-- The event is a release done by `free_process`. -/
def isRelease (e : Event) : Prop := ∃ ptr, e = ⟨.free ptr, 0⟩

/-- The run left with status 1 right after one call: before that call no setup
step had failed, after it only the release of the handle happened. -/
structure Halted {α : Type} (o : IsoOracle) (r : Run α) : Prop where
  out : r.out = .exit 1
  parts : ∃ pre e post, r.trace = pre ++ e :: post ∧
    (∀ x ∈ pre, ¬ setupFailure o x) ∧ (∀ x ∈ post, isRelease x)

/-- A part of the setup: it never forks, and either no step in it failed or it
halted. -/
structure Seg {α : Type} (o : IsoOracle) (r : Run α) : Prop where
  noFork : ∀ e ∈ r.trace, e.call ≠ .fork
  halts : (∀ e ∈ r.trace, ¬ setupFailure o e) ∨ Halted o r

/-- A whole run: either no setup step in it failed, or it halted and never
forked. -/
structure Whole {α : Type} (o : IsoOracle) (r : Run α) : Prop where
  halts : (∀ e ∈ r.trace, ¬ setupFailure o e) ∨
    (Halted o r ∧ ∀ e ∈ r.trace, e.call ≠ .fork)

/-! ## Basic facts about runs -/

@[simp] theorem emit_trace {α : Type} (e : Event) (r : Run α) :
    (emit e r).trace = e :: r.trace := rfl

@[simp] theorem emit_out {α : Type} (e : Event) (r : Run α) :
    (emit e r).out = r.out := rfl

@[simp] theorem run_pure_bind {α β : Type} (a : α) (f : α → Run β) :
    (pure a : Run α) >>= f = f a := by
  show Run.bind (Run.pure a) f = f a
  simp [Run.bind, Run.pure]

@[simp] theorem run_pure_bind2 {α β : Type} (a : α) (f : α → Run β) :
    (Run.pure a : Run α) >>= f = f a := run_pure_bind a f

@[simp] theorem pure_trace {α : Type} (a : α) : (pure a : Run α).trace = [] := rfl

@[simp] theorem pure_out {α : Type} (a : α) : (pure a : Run α).out = .ret a := rfl

@[simp] theorem run_pure_trace {α : Type} (a : α) : (Run.pure a : Run α).trace = [] := rfl

@[simp] theorem run_pure_out {α : Type} (a : α) : (Run.pure a : Run α).out = .ret a := rfl

@[simp] theorem sys_bind {β : Type} (c : Call) (r : Int) (f : Int → Run β) :
    sys c r >>= f = emit ⟨c, r⟩ (f r) := by
  show Run.bind (sys c r) f = _
  simp [Run.bind, sys, emit]

@[simp] theorem emit_bind {α β : Type} (e : Event) (x : Run α) (f : α → Run β) :
    emit e x >>= f = emit e (x >>= f) := by
  show Run.bind (emit e x) f = emit e (Run.bind x f)
  unfold Run.bind emit
  cases x.out <;> simp

@[simp] theorem exit_bind {α β : Type} (c : Int) (f : α → Run β) :
    (exit c : Run α) >>= f = exit c := rfl

@[simp] theorem exit_trace {α : Type} (c : Int) : (exit c : Run α).trace = [] := rfl

@[simp] theorem exit_out {α : Type} (c : Int) : (exit c : Run α).out = .exit c := rfl

@[simp] theorem undefinedBehaviour_bind {α β : Type} (f : α → Run β) :
    (undefinedBehaviour : Run α) >>= f = undefinedBehaviour := rfl

@[simp] theorem undefinedBehaviour_trace {α : Type} :
    (undefinedBehaviour : Run α).trace = [] := rfl

@[simp] theorem undefinedBehaviour_out {α : Type} :
    (undefinedBehaviour : Run α).out = .undefined := rfl

@[simp] theorem ite_bind {α β : Type} (c : Prop) [Decidable c] (x y : Run α)
    (f : α → Run β) : (if c then x else y) >>= f = if c then x >>= f else y >>= f := by
  split <;> rfl

theorem bind_trace_ret {α β : Type} (x : Run α) (f : α → Run β) (a : α)
    (h : x.out = .ret a) : (x >>= f).trace = x.trace ++ (f a).trace := by
  show (Run.bind x f).trace = _
  simp [Run.bind, h]

theorem bind_out_ret {α β : Type} (x : Run α) (f : α → Run β) (a : α)
    (h : x.out = .ret a) : (x >>= f).out = (f a).out := by
  show (Run.bind x f).out = _
  simp [Run.bind, h]

theorem bind_trace_stop {α β : Type} (x : Run α) (f : α → Run β)
    (h : ∀ a, x.out ≠ .ret a) : (x >>= f).trace = x.trace := by
  show (Run.bind x f).trace = _
  unfold Run.bind
  cases hx : x.out <;> simp_all

theorem bind_out_exit {α β : Type} (x : Run α) (f : α → Run β) (c : Int)
    (h : x.out = .exit c) : (x >>= f).out = .exit c := by
  show (Run.bind x f).out = _
  simp [Run.bind, h]

@[simp] theorem free_process_bind {β : Type} (proc : Process) (f : Unit → Run β) :
    free_process proc >>= f =
      if proc.Stack ≠ 0 then emit ⟨.free proc.Stack, 0⟩ (f ()) else f () := by
  unfold free_process
  split <;> simp

@[simp] theorem graceful_exit_trace {α : Type} (proc : Process) (msg : String) (c : Int) :
    (graceful_exit proc msg c : Run α).trace = releaseOf proc := by
  unfold graceful_exit releaseOf
  simp only [free_process_bind]
  split <;> simp

@[simp] theorem graceful_exit_out {α : Type} (proc : Process) (msg : String) (c : Int) :
    (graceful_exit proc msg c : Run α).out = .exit c := by
  unfold graceful_exit
  simp only [free_process_bind]
  split <;> simp

@[simp] theorem graceful_exit_bind {α β : Type} (proc : Process) (msg : String) (c : Int)
    (f : α → Run β) :
    (graceful_exit proc msg c : Run α) >>= f = graceful_exit proc msg c := by
  unfold graceful_exit
  simp only [free_process_bind]
  split <;> simp

theorem graceful_exit_eq {α : Type} (proc : Process) (msg : String) (c : Int) :
    (graceful_exit proc msg c : Run α) = ⟨releaseOf proc, .exit c⟩ := by
  unfold graceful_exit releaseOf
  simp only [free_process_bind]
  split <;> rfl

theorem emit_mk {α : Type} (e : Event) (t : List Event) (out : Outcome α) :
    emit e ⟨t, out⟩ = ⟨e :: t, out⟩ := rfl

theorem exit_eq {α : Type} (c : Int) : (exit c : Run α) = ⟨[], .exit c⟩ := rfl

theorem mk_exit_bind {α β : Type} (t : List Event) (c : Int) (f : α → Run β) :
    (⟨t, .exit c⟩ : Run α) >>= f = ⟨t, .exit c⟩ := rfl

/-! ## Properties of every event of a run -/

theorem allEv_bind {α β : Type} (P : Event → Prop) (x : Run α) (f : α → Run β)
    (hx : AllEv P x) (hf : ∀ a, AllEv P (f a)) : AllEv P (x >>= f) := by
  refine ⟨fun e he => ?_⟩
  cases hout : x.out with
  | ret a =>
    rw [bind_trace_ret x f a hout] at he
    rcases List.mem_append.mp he with h | h
    · exact hx.all e h
    · exact (hf a).all e h
  | exit c =>
    rw [bind_trace_stop x f (by simp [hout])] at he
    exact hx.all e he
  | execd =>
    rw [bind_trace_stop x f (by simp [hout])] at he
    exact hx.all e he
  | undefined =>
    rw [bind_trace_stop x f (by simp [hout])] at he
    exact hx.all e he
  | blocked =>
    rw [bind_trace_stop x f (by simp [hout])] at he
    exact hx.all e he

theorem allEv_emit {α : Type} (P : Event → Prop) (e : Event) (r : Run α)
    (he : P e) (hr : AllEv P r) : AllEv P (emit e r) := by
  refine ⟨fun x hx => ?_⟩
  rcases List.mem_cons.mp hx with h | h
  · exact h ▸ he
  · exact hr.all x h

theorem allEv_ite {α : Type} (P : Event → Prop) (c : Prop) [Decidable c] (a b : Run α)
    (ha : AllEv P a) (hb : AllEv P b) : AllEv P (if c then a else b) := by
  split
  · exact ha
  · exact hb

theorem allEv_graceful_exit {α : Type} (P : Event → Prop) (proc : Process) (msg : String)
    (c : Int) (hfree : ∀ ptr, P ⟨.free ptr, 0⟩) :
    AllEv P (graceful_exit proc msg c : Run α) := by
  refine ⟨fun e he => ?_⟩
  rw [graceful_exit_trace] at he
  unfold releaseOf at he
  split at he
  · rw [List.mem_singleton] at he
    exact he ▸ hfree _
  · simp at he

theorem allEv_nil {α : Type} (P : Event → Prop) (out : Outcome α) :
    AllEv P (⟨[], out⟩ : Run α) :=
  ⟨fun e he => by simp at he⟩

theorem allEv_pure {α : Type} (P : Event → Prop) (a : α) : AllEv P (pure a : Run α) :=
  allEv_nil P _

theorem allEv_sprintf (P : Event → Prop) (cap : Nat) (a b : String) :
    AllEv P (sprintf cap a b) := by
  show AllEv P (if (a ++ "/" ++ b).utf8ByteSize + 1 ≤ cap
    then Run.pure (a ++ "/" ++ b, ((a ++ "/" ++ b).utf8ByteSize : Int)) else undefinedBehaviour)
  split
  · exact allEv_nil P _
  · exact allEv_nil P _

/-! ## Strings and the environment -/

theorem utf8ByteSize_append (a b : String) :
    (a ++ b).utf8ByteSize = a.utf8ByteSize + b.utf8ByteSize := by
  cases a with
  | mk as =>
    cases b with
    | mk bs =>
      show String.utf8ByteSize (String.append ⟨as⟩ ⟨bs⟩) = _
      simp [String.append]

theorem rootfs_text (ctx : String) : ctx ++ "/" ++ "rootfs" = ctx ++ "/rootfs" := by
  rw [String.append_assoc]; rfl

theorem put_old_text (rootfs : String) : rootfs ++ "/" ++ ".put_old" = rootfs ++ "/.put_old" := by
  rw [String.append_assoc]; rfl

theorem rootfs_size (ctx : String) :
    (ctx ++ "/rootfs").utf8ByteSize = ctx.utf8ByteSize + 7 := by
  rw [utf8ByteSize_append]; rfl

theorem put_old_size (ctx : String) :
    (ctx ++ "/rootfs" ++ "/.put_old").utf8ByteSize = ctx.utf8ByteSize + 16 := by
  rw [utf8ByteSize_append, rootfs_size]; rfl

theorem sprintf_fits (cap : Nat) (a b : String)
    (h : (a ++ "/" ++ b).utf8ByteSize + 1 ≤ cap) :
    sprintf cap a b = Run.pure (a ++ "/" ++ b, ((a ++ "/" ++ b).utf8ByteSize : Int)) := by
  unfold sprintf
  simp only [if_pos h]

theorem sprintf_overflows (cap : Nat) (a b : String)
    (h : ¬ (a ++ "/" ++ b).utf8ByteSize + 1 ≤ cap) :
    sprintf cap a b = undefinedBehaviour := by
  unfold sprintf
  simp only [if_neg h]

theorem sprintf_rootfs (ctx : String) (h : ctx.utf8ByteSize ≤ 142) :
    sprintf BUFFER_SIZE ctx "rootfs"
      = Run.pure (ctx ++ "/rootfs", (ctx.utf8ByteSize : Int) + 7) := by
  rw [sprintf_fits, rootfs_text, rootfs_size]
  · simp
  · rw [rootfs_text, rootfs_size]; simp only [BUFFER_SIZE]; omega

theorem sprintf_put_old (ctx : String) (h : ctx.utf8ByteSize ≤ 133) :
    sprintf BUFFER_SIZE (ctx ++ "/rootfs") ".put_old"
      = Run.pure (ctx ++ "/rootfs" ++ "/.put_old", (ctx.utf8ByteSize : Int) + 16) := by
  rw [sprintf_fits, put_old_text, put_old_size]
  · simp
  · rw [put_old_text, put_old_size]; simp only [BUFFER_SIZE]; omega

theorem sprintf_rootfs_overflows (ctx : String) (h : 143 ≤ ctx.utf8ByteSize) :
    sprintf BUFFER_SIZE ctx "rootfs" = undefinedBehaviour := by
  apply sprintf_overflows
  rw [rootfs_text, rootfs_size]; simp only [BUFFER_SIZE]; omega

theorem sprintf_put_old_overflows (ctx : String) (h : 134 ≤ ctx.utf8ByteSize) :
    sprintf BUFFER_SIZE (ctx ++ "/rootfs") ".put_old" = undefinedBehaviour := by
  apply sprintf_overflows
  rw [put_old_text, put_old_size]; simp only [BUFFER_SIZE]; omega

theorem getenv_setenv_update (E : Environ) (k v k2 : String) :
    getenv (setenv_update E k v) k2 = if k = k2 then some v else getenv E k2 := by
  induction E with
  | nil => simp [setenv_update, getenv]
  | cons kv rest ih =>
    obtain ⟨k1, v1⟩ := kv
    by_cases h1 : k1 = k
    · subst h1
      by_cases h2 : k1 = k2 <;> simp [setenv_update, getenv, h2]
    · by_cases h2 : k1 = k2
      · subst h2
        simp [setenv_update, getenv, h1, Ne.symm h1]
      · simp [setenv_update, getenv, h1, h2, ih]

theorem lastDeclared_isSome (decls : List ProcessEnvVar) (k : String) :
    (lastDeclared decls k).isSome = true ↔ ∃ kv ∈ decls, kv.Key = k := by
  induction decls with
  | nil => simp [lastDeclared]
  | cons kv rest ih =>
    unfold lastDeclared
    cases hr : lastDeclared rest k with
    | some v =>
      have : ∃ kv ∈ rest, kv.Key = k := ih.mp (by simp [hr])
      obtain ⟨x, hx, hk⟩ := this
      simp only [Option.isSome_some, List.mem_cons, true_iff]
      exact ⟨x, Or.inr hx, hk⟩
    | none =>
      have hno : ¬ ∃ kv ∈ rest, kv.Key = k := fun h => by
        have := ih.mpr h
        simp [hr] at this
      by_cases hk : kv.Key = k
      · simp only [hk, if_true, Option.isSome_some, List.mem_cons, true_iff]
        exact ⟨kv, Or.inl rfl, hk⟩
      · simp only [hk, if_false, Option.isSome_none, List.mem_cons]
        constructor
        · intro h; cases h
        · rintro ⟨x, hx | hx, hxk⟩
          · exact absurd (hx ▸ hxk) hk
          · exact absurd ⟨x, hx, hxk⟩ hno

/-- The loop of `overwrite_env` when every `setenv` from index `i` on returns
0: it returns, and a name has the value of its last declaration, or the value
it had when the loop was entered if it is not declared. -/
theorem overwrite_env_loop_returns (o : IsoOracle) (proc : Process)
    (decls : List ProcessEnvVar) :
    ∀ (i : Nat) (E : Environ), (∀ j, j < decls.length → o.setenv (i + j) = 0) →
      ∃ E2, (overwrite_env_loop o proc decls i E).out = .ret E2 ∧
        (∀ k, getenv E2 k = (lastDeclared decls k).orElse (fun _ => getenv E k)) ∧
        (decls = [] → E2 = E) := by
  induction decls with
  | nil =>
    intro i E _
    exact ⟨E, rfl, by simp [lastDeclared], fun _ => rfl⟩
  | cons kv rest ih =>
    intro i E h
    have h0 : o.setenv i = 0 := by simpa using h 0 (by simp)
    have hrest : ∀ j, j < rest.length → o.setenv (i + 1 + j) = 0 := by
      intro j hj
      have := h (j + 1) (by simpa using hj)
      rw [show i + 1 + j = i + (j + 1) by omega]
      exact this
    obtain ⟨E2, hout, hget, _⟩ := ih (i + 1) (setenv_update E kv.Key kv.Val) hrest
    refine ⟨E2, ?_, ?_, by simp⟩
    · simp only [overwrite_env_loop, sys_bind, ite_bind, graceful_exit_bind, run_pure_bind,
        emit_out, h0, ne_eq, not_true_eq_false, if_false]
      exact hout
    · intro k
      rw [hget k, getenv_setenv_update]
      cases hl : lastDeclared rest k with
      | some v => simp [lastDeclared, hl]
      | none =>
        by_cases hk : kv.Key = k <;> simp [lastDeclared, hl, hk]

theorem main_loop_returns (pid : Int) (l : List (Int × WaitStatus))
    (h : ∃ rs ∈ l, WIFEXITED rs.2 = true ∨ WIFSIGNALED rs.2 = true) :
    (main_loop pid l).out = .ret () := by
  induction l with
  | nil => simp at h
  | cons hd tl ih =>
    obtain ⟨r, status⟩ := hd
    simp only [main_loop, sys_bind, emit_out]
    by_cases h1 : WIFEXITED status = true
    · simp [h1]
    · by_cases h2 : WIFSIGNALED status = true
      · simp [h1, h2]
      · simp only [h1, h2, if_false, Bool.false_eq_true]
        apply ih
        obtain ⟨rs, hmem, hrs⟩ := h
        rcases List.mem_cons.mp hmem with heq | htl
        · subst heq
          simp [h1, h2] at hrs
        · exact ⟨rs, htl, hrs⟩

/-! ## Runs of `prepare_mntns` -/

/-- The run of `prepare_mntns` when the paths fit the buffer and every call
succeeds. -/
theorem prepare_mntns_success_run (o : IsoOracle) (proc : Process)
    (hlen : proc.ContextDir.utf8ByteSize ≤ 133) (hok : mountCallsSucceed o) :
    prepare_mntns o proc
      = emit ⟨.mount none "/" none (MS_REC ||| MS_PRIVATE) none, 0⟩
        (emit ⟨.mount (some (proc.ContextDir ++ "/rootfs")) (proc.ContextDir ++ "/rootfs")
            (some "ext4") MS_BIND (some ""), 0⟩
        (emit ⟨.chdir proc.ContextDir, 0⟩
        (emit ⟨.mkdir (proc.ContextDir ++ "/rootfs" ++ "/.put_old") 0o777, 0⟩
        (emit ⟨.pivot_root (proc.ContextDir ++ "/rootfs")
            (proc.ContextDir ++ "/rootfs" ++ "/.put_old"), 0⟩
        (emit ⟨.chdir "/", 0⟩
        (emit ⟨.mkdir "/proc" 0o555, o.mkdir_proc⟩
        (emit ⟨.mount (some "proc") "/proc" (some "proc") 0 (some ""), 0⟩
        (emit ⟨.umount2 ".put_old" MNT_DETACH, 0⟩
        (emit ⟨.rmdir ".put_old", 0⟩
        (pure { proc with Rootfs := some (proc.ContextDir ++ "/rootfs") })))))))))) := by
  obtain ⟨h1, h2, h3, h4, h5, h6, h7, h8, h9, h10⟩ := hok
  have hn1 : ¬ ((proc.ContextDir.utf8ByteSize : Int) + 7 < 0) := by omega
  have hn2 : ¬ ((proc.ContextDir.utf8ByteSize : Int) + 16 < 0) := by omega
  have hp : ¬ (o.mkdir_proc = -1 ∧ o.mkdir_proc_errno ≠ EEXIST) := by
    rcases h7 with h | ⟨_, h⟩
    · simp [h]
    · simp [h]
  simp only [prepare_mntns, prepare_procfs, sprintf_rootfs proc.ContextDir (by omega),
    sprintf_put_old proc.ContextDir hlen, run_pure_bind2, sys_bind, ite_bind,
    graceful_exit_bind, run_pure_bind, emit_bind, hn1, hn2, hp, h1, h2, h3, h4, h5, h6, h8,
    h9, h10, if_false, ne_eq, not_true_eq_false]
  simp

/-- When `contextDir` has 134 bytes or more and the calls before the second
`sprintf` succeed, `prepare_mntns` reaches a `sprintf` that writes past the
buffer. -/
theorem prepare_mntns_overflow (o : IsoOracle) (proc : Process)
    (hlen : 134 ≤ proc.ContextDir.utf8ByteSize)
    (h1 : o.mount_private ≠ -1) (h2 : o.mount_bind ≠ -1) (h3 : o.chdir_ctx2 = 0) :
    (prepare_mntns o proc).out = .undefined := by
  by_cases h142 : proc.ContextDir.utf8ByteSize ≤ 142
  · have hn1 : ¬ ((proc.ContextDir.utf8ByteSize : Int) + 7 < 0) := by omega
    simp only [prepare_mntns, sprintf_rootfs proc.ContextDir h142,
      sprintf_put_old_overflows proc.ContextDir hlen, run_pure_bind2, sys_bind, ite_bind,
      graceful_exit_bind, run_pure_bind, emit_bind, undefinedBehaviour_bind, hn1, h1, h2, h3,
      if_false, ne_eq, not_true_eq_false, emit_out, undefinedBehaviour_out]
  · simp only [prepare_mntns, sprintf_rootfs_overflows proc.ContextDir (by omega),
      undefinedBehaviour_bind, undefinedBehaviour_out]

/-! ## Order of events in a trace -/

theorem comesAfter_sound (p q : Event → Prop) (tr : List Event)
    (h : comesAfter p q tr) :
    ∀ pre e post, tr = pre ++ e :: post → q e → ∃ x ∈ pre, p x := by
  induction tr with
  | nil =>
    intro pre e post heq
    simp at heq
  | cons a rest ih =>
    intro pre e post heq hq
    obtain ⟨hnq, hpa⟩ := h
    cases pre with
    | nil =>
      simp only [List.nil_append, List.cons.injEq] at heq
      obtain ⟨ha, _⟩ := heq
      subst ha
      exact absurd hq hnq
    | cons b pre2 =>
      simp only [List.cons_append, List.cons.injEq] at heq
      obtain ⟨ha, hrest⟩ := heq
      subst ha
      rcases hpa with hp | hrec
      · exact ⟨a, by simp, hp⟩
      · obtain ⟨x, hx, hpx⟩ := ih hrec pre2 e post hrest hq
        exact ⟨x, by simp [hx], hpx⟩

/-! ## Usage errors (`main`) -/

/-- C9: when `main` is entered with `argc < 2` it prints the usage text and
returns 1; the usage `printf` is the only call of the run, so no `fork`,
`clone`, `pipe`, `chdir`, `mount` or `pivot_root` is issued and
`start_process` (whose first call is a `chdir`) is not entered. -/
theorem main_missing_argument (STACKSIZE : Nat) (o : MainOracle) (argc : Int)
    (argv : List String) (h : argc < 2) :
    (main STACKSIZE o argc argv).out = .ret 1 ∧
    exitStatus (main STACKSIZE o argc argv) = some 1 ∧
    (main STACKSIZE o argc argv).trace.map Event.call = [.printf usageText] ∧
    ∀ e ∈ (main STACKSIZE o argc argv).trace, e.call.createsOrPrivileged = false := by
  have hm : main STACKSIZE o argc argv = emit ⟨.printf usageText, usageText.utf8ByteSize⟩ (pure 1) := by
    simp only [main, print_usage, if_pos h, sys_bind, emit_bind, run_pure_bind]
    rfl
  rw [hm]
  simp [exitStatus, Call.createsOrPrivileged]

/-- C9, at `argc = 1`, `argv = ["procmand"]`. -/
theorem main_missing_argument_witness :
    (main 1024 ⟨5, launchSucceeds, []⟩ 1 ["procmand"]).out = .ret 1 ∧
    exitStatus (main 1024 ⟨5, launchSucceeds, []⟩ 1 ["procmand"]) = some 1 ∧
    (main 1024 ⟨5, launchSucceeds, []⟩ 1 ["procmand"]).trace.map Event.call
      = [.printf usageText] ∧
    ∀ e ∈ (main 1024 ⟨5, launchSucceeds, []⟩ 1 ["procmand"]).trace,
      e.call.createsOrPrivileged = false :=
  main_missing_argument 1024 ⟨5, launchSucceeds, []⟩ 1 ["procmand"] (by decide)

/-! ## Exit status of `main` -/

/-- C1 (as amended): when `main` gets a job file and `fork` fails, the exit
status is 1; when `fork` returns a child pid to the process the shell started
and `waitpid` reports the supervisor child as exited (with any status) or as
killed by a signal, `main` returns 0: the status of the child is not read. -/
theorem main_exit_status (STACKSIZE : Nat) (o : MainOracle) (argc : Int)
    (argv : List String) (h : 2 ≤ argc) :
    (o.fork < 0 → exitStatus (main STACKSIZE o argc argv) = some 1) ∧
    (0 < o.fork →
      (∃ rs ∈ o.waitpid, WIFEXITED rs.2 = true ∨ WIFSIGNALED rs.2 = true) →
      (main STACKSIZE o argc argv).out = .ret 0 ∧
      exitStatus (main STACKSIZE o argc argv) = some 0) := by
  have hargc : ¬ argc < 2 := by omega
  constructor
  · intro hf
    simp [main, hargc, hf, exitStatus]
  · intro hf hw
    have h1 : ¬ o.fork < 0 := by omega
    have h2 : ¬ o.fork = 0 := by omega
    have hl := main_loop_returns o.fork o.waitpid hw
    have hout : (main STACKSIZE o argc argv).out = .ret 0 := by
      simp only [main, hargc, if_false, sys_bind, emit_out, h1, h2, run_pure_bind]
      rw [bind_out_ret _ _ () hl]
      rfl
    exact ⟨hout, by simp [exitStatus, hout]⟩

/-- C1 (as amended), for a supervisor child that exited with status 1. -/
theorem main_exit_status_witness :
    (main 1024 ⟨5, launchSucceeds, [(5, .exited 1)]⟩ 2 ["procmand", "job.yaml"]).out
      = .ret 0 ∧
    exitStatus (main 1024 ⟨5, launchSucceeds, [(5, .exited 1)]⟩ 2 ["procmand", "job.yaml"])
      = some 0 :=
  (main_exit_status 1024 ⟨5, launchSucceeds, [(5, .exited 1)]⟩ 2 ["procmand", "job.yaml"]
    (by decide)).2 (by decide) ⟨(5, .exited 1), by simp, by simp [WIFEXITED]⟩

/-- C1 fails as stated: with a job file whose handshake read fails, the
supervisor child leaves with status 1, and the process the shell started, to
which `waitpid` reports that child as exited with status 1 (or as killed by
signal 9), returns 0. -/
theorem main_ignores_child_status :
    exitStatus (main 1024 ⟨0, { launchSucceeds with read := 0 }, []⟩ 2
      ["procmand", "job.yaml"]) = some 1 ∧
    exitStatus (main 1024 ⟨5, { launchSucceeds with read := 0 }, [(5, .exited 1)]⟩ 2
      ["procmand", "job.yaml"]) = some 0 ∧
    exitStatus (main 1024 ⟨5, { launchSucceeds with read := 0 }, [(5, .signaled 9)]⟩ 2
      ["procmand", "job.yaml"]) = some 0 := by
  decide

/-! ## The supervision loop of `isoproc` -/

/-- C3, the code at the failing input: when `waitpid` reports that the job
exited with status 0, the supervision loop leaves through `graceful_exit` with
status 1; so does the whole of `isoproc` when every call succeeds and the job
`echo hello` exits with status 0.  For every terminal status (exited with any
code, or killed by a signal) the loop ends at once with status 1: the run is
that one `waitpid` followed by the release of the handle, whatever later
reports there might be. -/
theorem isoproc_loop_job_success_exits_one :
    (∀ (proc : Process) (pid r : Int) (rest : List (Int × WaitStatus)),
      (isoproc_loop proc pid ((r, .exited 0) :: rest)).out = .exit 1) ∧
    (isoproc allSucceed sampleProcess [("PATH", "/bin")]).out = .exit 1 ∧
    (∀ (proc : Process) (pid r : Int) (status : WaitStatus) (rest : List (Int × WaitStatus)),
      WIFEXITED status = true ∨ WIFSIGNALED status = true →
      isoproc_loop proc pid ((r, status) :: rest)
        = ⟨⟨.waitpid pid (some status), r⟩ :: releaseOf proc, .exit 1⟩) := by
  refine ⟨?_, by decide, ?_⟩
  · intro proc pid r rest
    simp [isoproc_loop, WIFEXITED]
  · intro proc pid r status rest h
    rcases h with h | h
    · simp only [isoproc_loop, sys_bind, h, if_true, ite_bind, graceful_exit_bind,
        graceful_exit_eq, mk_exit_bind, emit_mk]
    · cases status <;> simp [WIFSIGNALED] at h
      simp only [isoproc_loop, sys_bind, WIFEXITED, WIFSIGNALED, if_true, ite_bind,
        graceful_exit_bind, graceful_exit_eq, mk_exit_bind, emit_mk, Bool.false_eq_true,
        if_false]

/-! ## The path buffer of `prepare_mntns` -/

/-- C10: for a `contextDir` of `n` bytes the two texts `prepare_mntns` formats
have `n + 7` and `n + 16` bytes.  When `n ≤ 133` both `sprintf` calls stay
inside the 150-byte buffer and produce `contextDir ++ "/rootfs"` and that text
followed by `"/.put_old"`, and a run in which every call succeeds returns with
that `Rootfs` and passes these two paths to `pivot_root`.  When `134 ≤ n` the
second text with its NUL needs more than 150 bytes, the `sprintf` writes past
the buffer, and `prepare_mntns` reaches that write whenever the calls before it
succeed: nothing on the way looks at `n`. -/
theorem prepare_mntns_buffer (ctx : String) :
    (ctx ++ "/rootfs").utf8ByteSize = ctx.utf8ByteSize + 7 ∧
    (ctx ++ "/rootfs" ++ "/.put_old").utf8ByteSize = ctx.utf8ByteSize + 16 ∧
    (ctx.utf8ByteSize ≤ 133 →
      sprintf BUFFER_SIZE ctx "rootfs"
        = Run.pure (ctx ++ "/rootfs", (ctx.utf8ByteSize : Int) + 7) ∧
      sprintf BUFFER_SIZE (ctx ++ "/rootfs") ".put_old"
        = Run.pure (ctx ++ "/rootfs" ++ "/.put_old", (ctx.utf8ByteSize : Int) + 16) ∧
      ∀ (o : IsoOracle) (proc : Process), proc.ContextDir = ctx → mountCallsSucceed o →
        (prepare_mntns o proc).out = .ret { proc with Rootfs := some (ctx ++ "/rootfs") } ∧
        (⟨.pivot_root (ctx ++ "/rootfs") (ctx ++ "/rootfs" ++ "/.put_old"), 0⟩ : Event)
          ∈ (prepare_mntns o proc).trace) ∧
    (134 ≤ ctx.utf8ByteSize →
      BUFFER_SIZE < (ctx ++ "/rootfs" ++ "/.put_old").utf8ByteSize + 1 ∧
      sprintf BUFFER_SIZE (ctx ++ "/rootfs") ".put_old" = undefinedBehaviour ∧
      ∀ (o : IsoOracle) (proc : Process), proc.ContextDir = ctx →
        o.mount_private ≠ -1 → o.mount_bind ≠ -1 → o.chdir_ctx2 = 0 →
        (prepare_mntns o proc).out = .undefined) := by
  refine ⟨rootfs_size ctx, put_old_size ctx, ?_, ?_⟩
  · intro hn
    refine ⟨sprintf_rootfs ctx (by omega), sprintf_put_old ctx hn, ?_⟩
    intro o proc hctx hok
    subst hctx
    rw [prepare_mntns_success_run o proc hn hok]
    exact ⟨rfl, by simp⟩
  · intro hn
    refine ⟨?_, sprintf_put_old_overflows ctx hn, ?_⟩
    · rw [put_old_size]; simp only [BUFFER_SIZE]; omega
    · intro o proc hctx h1 h2 h3
      subst hctx
      exact prepare_mntns_overflow o proc hn h1 h2 h3

/-- C10 at the 4-byte `contextDir` `/ctx`, and at a `contextDir` of 134 bytes,
for which the second `sprintf` overflows. -/
theorem prepare_mntns_buffer_witness :
    sprintf BUFFER_SIZE "/ctx" "rootfs" = Run.pure ("/ctx/rootfs", 11) ∧
    sprintf BUFFER_SIZE "/ctx/rootfs" ".put_old" = Run.pure ("/ctx/rootfs/.put_old", 20) ∧
    (prepare_mntns allSucceed sampleProcess).out
      = .ret { sampleProcess with Rootfs := some "/ctx/rootfs" } ∧
    134 ≤ longContextDir.utf8ByteSize ∧
    sprintf BUFFER_SIZE (longContextDir ++ "/rootfs") ".put_old" = undefinedBehaviour := by
  have h := (prepare_mntns_buffer "/ctx").2.2.1 (by decide)
  have hlong : 134 ≤ longContextDir.utf8ByteSize := by
    set_option maxRecDepth 100000 in
    decide
  exact ⟨h.1, h.2.1, (h.2.2 allSucceed sampleProcess rfl
    (by simp [mountCallsSucceed, allSucceed])).1, hlong,
    ((prepare_mntns_buffer longContextDir).2.2.2 hlong).2.1⟩

/-! ## Environment reset -/

/-- C4: when `clearenv` and every `setenv` succeed, `overwrite_env` returns;
without a declared environment (or without a handle) it leaves the inherited
environment `E` as it is and issues no call; with a declared environment the
environment it leaves binds a name exactly when the name is declared, to the
value of its last declaration, whatever `E` was, and it is empty when `count`
is 0. -/
theorem overwrite_env_resets (o : IsoOracle) (proc : Process) (E : Environ)
    (hclear : o.clearenv = 0)
    (hset : ∀ env, proc.Env = some env → ∀ i, i < env.count → o.setenv i = 0) :
    overwrite_env o none E = Run.pure E ∧
    (proc.Env = none → overwrite_env o (some proc) E = Run.pure E) ∧
    (∀ env, proc.Env = some env →
      ∃ E2, (overwrite_env o (some proc) E).out = .ret E2 ∧
        (∀ k, getenv E2 k = lastDeclared env.env k) ∧
        (∀ k, (getenv E2 k).isSome = true ↔ ∃ kv ∈ env.env, kv.Key = k) ∧
        (env.count = 0 → E2 = [])) := by
  refine ⟨rfl, ?_, ?_⟩
  · intro h
    simp only [overwrite_env, h]
  · intro env henv
    have hs : ∀ j, j < env.env.length → o.setenv (0 + j) = 0 := by
      intro j hj
      rw [Nat.zero_add]
      exact hset env henv j hj
    obtain ⟨E2, hout, hget, hnil⟩ := overwrite_env_loop_returns o proc env.env 0 [] hs
    have hget2 : ∀ k, getenv E2 k = lastDeclared env.env k := by
      intro k
      rw [hget k]
      cases lastDeclared env.env k <;> simp [getenv]
    refine ⟨E2, ?_, hget2, ?_, ?_⟩
    · simp only [overwrite_env, henv, sys_bind, ite_bind, graceful_exit_bind, run_pure_bind,
        emit_out, hclear, ne_eq, not_true_eq_false, if_false]
      exact hout
    · intro k
      rw [hget2 k]
      exact lastDeclared_isSome env.env k
    · intro hc
      exact hnil (List.length_eq_zero.mp hc)

/-- C4 for the declared environment `FOO=bar` and the inherited environment
`PATH=/bin`: what is left binds `FOO` to `bar` and does not bind `PATH`. -/
theorem overwrite_env_resets_witness :
    ∃ E2, (overwrite_env allSucceed (some sampleProcess) [("PATH", "/bin")]).out = .ret E2 ∧
      getenv E2 "FOO" = some "bar" ∧ getenv E2 "PATH" = none := by
  obtain ⟨E2, hout, hget, _, _⟩ :=
    (overwrite_env_resets allSucceed sampleProcess [("PATH", "/bin")] rfl
      (fun _ _ _ _ => rfl)).2.2 ⟨[⟨"FOO", "bar"⟩]⟩ rfl
  exact ⟨E2, hout, by rw [hget]; decide, by rw [hget]; decide⟩

/-! ## Mount namespace setup -/

/-- For a `contextDir` of at most 133 bytes, when every call succeeds,
`prepare_mntns` returns with `Rootfs = contextDir ++ "/rootfs"` and issues
exactly the ten calls of `mountSequence`, in that order, with
`put_old = Rootfs ++ "/.put_old"`; the path `.put_old` of the unmount and of
the `rmdir`, resolved from `/` under the new root, names the directory passed
as `put_old` to `pivot_root`. -/
theorem prepare_mntns_sequence (o : IsoOracle) (proc : Process)
    (hlen : proc.ContextDir.utf8ByteSize ≤ 133) (hok : mountCallsSucceed o) :
    (prepare_mntns o proc).out
      = .ret { proc with Rootfs := some (proc.ContextDir ++ "/rootfs") } ∧
    (prepare_mntns o proc).trace.map Event.call
      = mountSequence proc.ContextDir (proc.ContextDir ++ "/rootfs")
          (proc.ContextDir ++ "/rootfs" ++ "/.put_old") ∧
    beforePivot (proc.ContextDir ++ "/rootfs") (resolveFrom "/" ".put_old")
      = proc.ContextDir ++ "/rootfs" ++ "/.put_old" := by
  rw [prepare_mntns_success_run o proc hlen hok]
  refine ⟨rfl, rfl, ?_⟩
  simp only [beforePivot, resolveFrom, if_true]
  rfl

/-- The sequence of `prepare_mntns` for the job in `/ctx`. -/
theorem prepare_mntns_sequence_witness :
    (prepare_mntns allSucceed sampleProcess).out
      = .ret { sampleProcess with Rootfs := some "/ctx/rootfs" } ∧
    (prepare_mntns allSucceed sampleProcess).trace.map Event.call
      = mountSequence "/ctx" "/ctx/rootfs" "/ctx/rootfs/.put_old" ∧
    beforePivot "/ctx/rootfs" (resolveFrom "/" ".put_old") = "/ctx/rootfs/.put_old" :=
  prepare_mntns_sequence allSucceed sampleProcess (by decide)
    (by simp [mountCallsSucceed, allSucceed])

/-- C6, the code at the failing input: for a `contextDir` of 134 bytes, with
every call succeeding, the second `sprintf` of `prepare_mntns` needs 151 bytes
of the 150-byte buffer; the run has issued three of the ten calls and its
behaviour is undefined from there on. -/
theorem prepare_mntns_long_contextDir :
    longContextDir.utf8ByteSize = 134 ∧
    (prepare_mntns allSucceed { sampleProcess with ContextDir := longContextDir }).out
      = .undefined ∧
    ((prepare_mntns allSucceed { sampleProcess with ContextDir := longContextDir }).trace.map
      Event.call).length = 3 := by
  set_option maxRecDepth 100000 in
  decide

/-! ## The runs of `start_process` -/

/-- The eleven runs of `start_process`: each is a beginning of `launchEvents`
followed by the release done on the way out.  A property that holds of each
holds of `start_process`. -/
theorem start_process_paths (STACKSIZE : Nat) (o : LaunchOracle) (loc : String)
    (p : Process) (Q : Run Process → Prop)
    (chdir_fails : o.chdir_ctx ≠ 0 →
      Q ⟨(launchEvents STACKSIZE o (o.parse_process_yaml loc p)).take 1
          ++ releaseOf (o.parse_process_yaml loc p), .exit 1⟩)
    (chdir2_fails : o.chdir_ctx = 0 → o.chdir_ctx2 ≠ 0 →
      Q ⟨(launchEvents STACKSIZE o (o.parse_process_yaml loc p)).take 3
          ++ releaseOf (o.parse_process_yaml loc p), .exit 1⟩)
    (pipe_fd_fails : o.chdir_ctx = 0 → o.chdir_ctx2 = 0 → o.pipe_fd < 0 →
      Q ⟨(launchEvents STACKSIZE o (o.parse_process_yaml loc p)).take 4
          ++ releaseOf (o.parse_process_yaml loc p), .exit 1⟩)
    (pipe_stdin_fails : o.chdir_ctx = 0 → o.chdir_ctx2 = 0 → ¬ o.pipe_fd < 0 →
      o.pipe_stdin < 0 →
      Q ⟨(launchEvents STACKSIZE o (o.parse_process_yaml loc p)).take 5
          ++ releaseOf (o.parse_process_yaml loc p), .exit 1⟩)
    (pipe_stdout_fails : o.chdir_ctx = 0 → o.chdir_ctx2 = 0 → ¬ o.pipe_fd < 0 →
      ¬ o.pipe_stdin < 0 → o.pipe_stdout ≠ 0 →
      Q ⟨(launchEvents STACKSIZE o (o.parse_process_yaml loc p)).take 6
          ++ releaseOf (o.parse_process_yaml loc p), .exit 1⟩)
    (pipe_stderr_fails : o.chdir_ctx = 0 → o.chdir_ctx2 = 0 → ¬ o.pipe_fd < 0 →
      ¬ o.pipe_stdin < 0 → o.pipe_stdout = 0 → o.pipe_stderr ≠ 0 →
      Q ⟨(launchEvents STACKSIZE o (o.parse_process_yaml loc p)).take 7
          ++ releaseOf (o.parse_process_yaml loc p), .exit 1⟩)
    (clone_fails : o.chdir_ctx = 0 → o.chdir_ctx2 = 0 → ¬ o.pipe_fd < 0 →
      ¬ o.pipe_stdin < 0 → o.pipe_stdout = 0 → o.pipe_stderr = 0 → o.clone = -1 →
      Q ⟨(launchEvents STACKSIZE o (o.parse_process_yaml loc p)).take 8
          ++ [⟨.free o.malloc, 0⟩], .exit EXIT_FAILURE⟩)
    (read_fails : o.chdir_ctx = 0 → o.chdir_ctx2 = 0 → ¬ o.pipe_fd < 0 →
      ¬ o.pipe_stdin < 0 → o.pipe_stdout = 0 → o.pipe_stderr = 0 → o.clone ≠ -1 →
      o.read ≠ 2 →
      Q ⟨(launchEvents STACKSIZE o (o.parse_process_yaml loc p)).take 12
          ++ releaseOf { o.parse_process_yaml loc p with Pid := o.clone }, .exit 1⟩)
    (write_fails : o.chdir_ctx = 0 → o.chdir_ctx2 = 0 → ¬ o.pipe_fd < 0 →
      ¬ o.pipe_stdin < 0 → o.pipe_stdout = 0 → o.pipe_stderr = 0 → o.clone ≠ -1 →
      o.read = 2 → o.write ≠ 2 →
      Q ⟨(launchEvents STACKSIZE o (o.parse_process_yaml loc p)).take 14
          ++ releaseOf { o.parse_process_yaml loc p with Pid := o.clone, Stack := o.malloc },
        .exit 1⟩)
    (waitpid_fails : o.chdir_ctx = 0 → o.chdir_ctx2 = 0 → ¬ o.pipe_fd < 0 →
      ¬ o.pipe_stdin < 0 → o.pipe_stdout = 0 → o.pipe_stderr = 0 → o.clone ≠ -1 →
      o.read = 2 → o.write = 2 → o.waitpid = -1 →
      Q ⟨launchEvents STACKSIZE o (o.parse_process_yaml loc p)
          ++ releaseOf { o.parse_process_yaml loc p with Pid := o.clone, Stack := o.malloc },
        .exit 1⟩)
    (success : o.chdir_ctx = 0 → o.chdir_ctx2 = 0 → ¬ o.pipe_fd < 0 →
      ¬ o.pipe_stdin < 0 → o.pipe_stdout = 0 → o.pipe_stderr = 0 → o.clone ≠ -1 →
      o.read = 2 → o.write = 2 → o.waitpid ≠ -1 →
      Q ⟨launchEvents STACKSIZE o (o.parse_process_yaml loc p)
          ++ releaseOf { o.parse_process_yaml loc p with Pid := o.clone, Stack := o.malloc },
        .exit 0⟩) :
    Q (start_process STACKSIZE o loc p) := by
  by_cases c1 : o.chdir_ctx = 0
  swap
  · convert chdir_fails c1 using 1
    simp only [start_process, pipes_fail, sys_bind, ite_bind, graceful_exit_bind,
      run_pure_bind, emit_bind, exit_bind, ne_eq, not_true_eq_false, not_false_eq_true,
      Bool.false_eq_true, ↓reduceIte, graceful_exit_eq, exit_eq, mk_exit_bind, emit_mk,
      launchEvents, List.take_succ_cons, List.take_zero, List.cons_append, List.nil_append,
      c1]
  by_cases c2 : o.chdir_ctx2 = 0
  swap
  · convert chdir2_fails c1 c2 using 1
    simp only [start_process, pipes_fail, sys_bind, ite_bind, graceful_exit_bind,
      run_pure_bind, emit_bind, exit_bind, ne_eq, not_true_eq_false, not_false_eq_true,
      Bool.false_eq_true, ↓reduceIte, graceful_exit_eq, exit_eq, mk_exit_bind, emit_mk,
      launchEvents, List.take_succ_cons, List.take_zero, List.cons_append, List.nil_append,
      c1, c2]
  by_cases c3 : o.pipe_fd < 0
  · convert pipe_fd_fails c1 c2 c3 using 1
    simp only [start_process, pipes_fail, sys_bind, ite_bind, graceful_exit_bind,
      run_pure_bind, emit_bind, exit_bind, ne_eq, not_true_eq_false, not_false_eq_true,
      Bool.false_eq_true, ↓reduceIte, graceful_exit_eq, exit_eq, mk_exit_bind, emit_mk,
      launchEvents, List.take_succ_cons, List.take_zero, List.cons_append, List.nil_append,
      c1, c2, c3]
  by_cases c4 : o.pipe_stdin < 0
  · convert pipe_stdin_fails c1 c2 c3 c4 using 1
    simp only [start_process, pipes_fail, sys_bind, ite_bind, graceful_exit_bind,
      run_pure_bind, emit_bind, exit_bind, ne_eq, not_true_eq_false, not_false_eq_true,
      Bool.false_eq_true, ↓reduceIte, graceful_exit_eq, exit_eq, mk_exit_bind, emit_mk,
      launchEvents, List.take_succ_cons, List.take_zero, List.cons_append, List.nil_append,
      c1, c2, c3, c4]
  by_cases c5 : o.pipe_stdout = 0
  swap
  · convert pipe_stdout_fails c1 c2 c3 c4 c5 using 1
    simp only [start_process, pipes_fail, sys_bind, ite_bind, graceful_exit_bind,
      run_pure_bind, emit_bind, exit_bind, ne_eq, not_true_eq_false, not_false_eq_true,
      Bool.false_eq_true, ↓reduceIte, graceful_exit_eq, exit_eq, mk_exit_bind, emit_mk,
      launchEvents, List.take_succ_cons, List.take_zero, List.cons_append, List.nil_append,
      c1, c2, c3, c4, c5]
  by_cases c6 : o.pipe_stderr = 0
  swap
  · convert pipe_stderr_fails c1 c2 c3 c4 c5 c6 using 1
    simp only [start_process, pipes_fail, sys_bind, ite_bind, graceful_exit_bind,
      run_pure_bind, emit_bind, exit_bind, ne_eq, not_true_eq_false, not_false_eq_true,
      Bool.false_eq_true, ↓reduceIte, graceful_exit_eq, exit_eq, mk_exit_bind, emit_mk,
      launchEvents, List.take_succ_cons, List.take_zero, List.cons_append, List.nil_append,
      c1, c2, c3, c4, c5, c6]
  by_cases c7 : o.clone = -1
  · convert clone_fails c1 c2 c3 c4 c5 c6 c7 using 1
    simp only [start_process, pipes_fail, sys_bind, ite_bind, graceful_exit_bind,
      run_pure_bind, emit_bind, exit_bind, ne_eq, not_true_eq_false, not_false_eq_true,
      Bool.false_eq_true, ↓reduceIte, graceful_exit_eq, exit_eq, mk_exit_bind, emit_mk,
      launchEvents, List.take_succ_cons, List.take_zero, List.cons_append, List.nil_append,
      c1, c2, c3, c4, c5, c6, c7]
  by_cases c8 : o.read = 2
  swap
  · convert read_fails c1 c2 c3 c4 c5 c6 c7 c8 using 1
    simp only [start_process, pipes_fail, sys_bind, ite_bind, graceful_exit_bind,
      run_pure_bind, emit_bind, exit_bind, ne_eq, not_true_eq_false, not_false_eq_true,
      Bool.false_eq_true, ↓reduceIte, graceful_exit_eq, exit_eq, mk_exit_bind, emit_mk,
      launchEvents, List.take_succ_cons, List.take_zero, List.cons_append, List.nil_append,
      c1, c2, c3, c4, c5, c6, c7, c8]
  by_cases c9 : o.write = 2
  swap
  · convert write_fails c1 c2 c3 c4 c5 c6 c7 c8 c9 using 1
    simp only [start_process, pipes_fail, sys_bind, ite_bind, graceful_exit_bind,
      run_pure_bind, emit_bind, exit_bind, ne_eq, not_true_eq_false, not_false_eq_true,
      Bool.false_eq_true, ↓reduceIte, graceful_exit_eq, exit_eq, mk_exit_bind, emit_mk,
      launchEvents, List.take_succ_cons, List.take_zero, List.cons_append, List.nil_append,
      c1, c2, c3, c4, c5, c6, c7, c8, c9]
  by_cases c10 : o.waitpid = -1
  · convert waitpid_fails c1 c2 c3 c4 c5 c6 c7 c8 c9 c10 using 1
    simp only [start_process, pipes_fail, sys_bind, ite_bind, graceful_exit_bind,
      run_pure_bind, emit_bind, exit_bind, ne_eq, not_true_eq_false, not_false_eq_true,
      Bool.false_eq_true, ↓reduceIte, graceful_exit_eq, exit_eq, mk_exit_bind, emit_mk,
      launchEvents, List.take_succ_cons, List.take_zero, List.cons_append, List.nil_append,
      c1, c2, c3, c4, c5, c6, c7, c8, c9, c10]
  convert success c1 c2 c3 c4 c5 c6 c7 c8 c9 c10 using 1
  simp only [start_process, pipes_fail, sys_bind, ite_bind, graceful_exit_bind,
    run_pure_bind, emit_bind, exit_bind, ne_eq, not_true_eq_false, not_false_eq_true,
    Bool.false_eq_true, ↓reduceIte, graceful_exit_eq, exit_eq, mk_exit_bind, emit_mk,
      launchEvents, List.take_succ_cons, List.take_zero, List.cons_append, List.nil_append,
      c1, c2, c3, c4, c5, c6, c7, c8, c9, c10]

/-! ## The handshake of `start_process` -/

theorem start_process_handshakeOrder (STACKSIZE : Nat) (o : LaunchOracle) (loc : String)
    (p : Process) : handshakeOrder (start_process STACKSIZE o loc p) := by
  apply start_process_paths
  all_goals intros
  all_goals simp only [handshakeOrder, launchEvents, releaseOf, List.take_succ_cons,
    List.take_zero, List.cons_append, List.nil_append]
  all_goals try split_ifs
  all_goals refine ⟨?_, ?_, ?_, ?_⟩
  all_goals simp only [comesAfter, reduceCtorEq, Call.isWrite, Call.isWaitpid,
    Bool.false_eq_true, Bool.true_eq_false, or_self, not_false_eq_true, readReturned,
    writeReturned, Event.mk.injEq, OfNat.zero_ne_ofNat, and_self, false_and, true_and, or_false,
    false_or, not_true_eq_false, or_true, true_or, and_true, and_false, ne_eq, List.mem_cons,
    List.mem_singleton, List.not_mem_nil, Outcome.exit.injEq, zero_ne_one, forall_eq_or_imp,
    forall_eq, imp_false, imp_self, implies_true, EXIT_FAILURE, false_implies, *]

/-- C8: in every run of `start_process`, (1) `prepare_userns` and the write of
"OK" occur only after the control-pipe read returned 2; (2) when that read
returns anything else the launcher exits with status 1 and neither
`prepare_userns` nor any write occurs; (3) `waitpid` occurs only after the
write returned 2; (4) when the write returns anything else the launcher exits
with status 1 and no `waitpid` occurs. -/
theorem start_process_handshake (STACKSIZE : Nat) (o : LaunchOracle) (loc : String)
    (p : Process) :
    (∀ pre e post, (start_process STACKSIZE o loc p).trace = pre ++ e :: post →
      (e.call = .prepare_userns ∨ e.call.isWrite = true) → readReturned 2 ∈ pre) ∧
    (∀ n, n ≠ 2 → readReturned n ∈ (start_process STACKSIZE o loc p).trace →
      (start_process STACKSIZE o loc p).out = .exit 1 ∧
      ∀ e ∈ (start_process STACKSIZE o loc p).trace,
        e.call ≠ .prepare_userns ∧ e.call.isWrite = false) ∧
    (∀ pre e post, (start_process STACKSIZE o loc p).trace = pre ++ e :: post →
      e.call.isWaitpid = true → writeReturned 2 ∈ pre) ∧
    (∀ n, n ≠ 2 → writeReturned n ∈ (start_process STACKSIZE o loc p).trace →
      (start_process STACKSIZE o loc p).out = .exit 1 ∧
      ∀ e ∈ (start_process STACKSIZE o loc p).trace, e.call.isWaitpid = false) := by
  have all := start_process_handshakeOrder STACKSIZE o loc p
  obtain ⟨h1, h2, h3, h4⟩ := all
  refine ⟨?_, h2, ?_, h4⟩
  · intro pre e post heq he
    obtain ⟨x, hx, hpx⟩ := comesAfter_sound _ _ _ h1 pre e post heq he
    exact hpx ▸ hx
  · intro pre e post heq he
    obtain ⟨x, hx, hpx⟩ := comesAfter_sound _ _ _ h3 pre e post heq he
    exact hpx ▸ hx

/-! ## The stack buffer of `start_process` -/

theorem start_process_stackRelease (STACKSIZE : Nat) (o : LaunchOracle) (loc : String)
    (p : Process) (hm : o.malloc ≠ 0) :
    stackRelease STACKSIZE o (start_process STACKSIZE o loc p) := by
  apply start_process_paths
  all_goals intros
  all_goals simp only [stackRelease, launchEvents, releaseOf, List.take_succ_cons,
    List.take_zero, List.cons_append, List.nil_append]
  all_goals try split_ifs
  all_goals refine ⟨?_, ?_, ?_, ?_, ?_, ?_⟩
  all_goals simp only [releases, cloneReturned, reduceCtorEq, Call.isWrite, Call.isWaitpid,
    Bool.false_eq_true, Bool.true_eq_false, or_self, not_false_eq_true, readReturned,
    writeReturned, Event.mk.injEq, OfNat.zero_ne_ofNat, and_self, false_and, true_and, or_false,
    false_or, not_true_eq_false, or_true, true_or, and_true, and_false, ne_eq, List.mem_cons,
    List.mem_singleton, List.not_mem_nil, Outcome.exit.injEq, zero_ne_one, forall_eq_or_imp,
    forall_eq, imp_false, imp_self, implies_true, EXIT_FAILURE, false_implies, if_true, if_false,
    Call.free.injEq, one_ne_zero, *]
  all_goals first | omega | (split_ifs <;> omega) | rfl | exact fun _ => ⟨rfl, rfl⟩

/-- C7 (as amended): when `malloc` returned a buffer, no run of `start_process`
releases it twice; it is released exactly once when `clone` fails and on every
run that reached the write of line 73 (the handle records the buffer from line
71 on), where the release is the last call of the run; on the run that exits
with status 0 the release directly follows a `waitpid` that did not return -1;
on a run whose write was short the release happens though no `waitpid` was
called, and on a run whose `waitpid` returned -1 it happens before the exit
with status 1. -/
theorem start_process_stack_release (STACKSIZE : Nat) (o : LaunchOracle) (loc : String)
    (p : Process) (hm : o.malloc ≠ 0) :
    releases o.malloc (start_process STACKSIZE o loc p).trace ≤ 1 ∧
    (cloneReturned STACKSIZE o (-1) ∈ (start_process STACKSIZE o loc p).trace →
      releases o.malloc (start_process STACKSIZE o loc p).trace = 1) ∧
    (∀ n, writeReturned n ∈ (start_process STACKSIZE o loc p).trace →
      releases o.malloc (start_process STACKSIZE o loc p).trace = 1 ∧
      (start_process STACKSIZE o loc p).trace.getLast? = some ⟨.free o.malloc, 0⟩) ∧
    ((start_process STACKSIZE o loc p).out = .exit 0 → o.waitpid ≠ -1 ∧
      (start_process STACKSIZE o loc p).trace.dropLast.getLast?
        = some ⟨.waitpid o.clone none, o.waitpid⟩ ∧
      (start_process STACKSIZE o loc p).trace.getLast? = some ⟨.free o.malloc, 0⟩) ∧
    (∀ n, n ≠ 2 → writeReturned n ∈ (start_process STACKSIZE o loc p).trace →
      ∀ e ∈ (start_process STACKSIZE o loc p).trace, e.call.isWaitpid = false) ∧
    ((⟨.waitpid o.clone none, -1⟩ : Event) ∈ (start_process STACKSIZE o loc p).trace →
      (start_process STACKSIZE o loc p).out = .exit 1 ∧
      releases o.malloc (start_process STACKSIZE o loc p).trace = 1) :=
  start_process_stackRelease STACKSIZE o loc p hm

/-- C7 (as amended) on the run in which every call succeeds. -/
theorem start_process_stack_release_witness :
    releases 4096 (start_process 1024 launchSucceeds "job.yaml" zeroProcess).trace = 1 ∧
    (start_process 1024 launchSucceeds "job.yaml" zeroProcess).trace.dropLast.getLast?
      = some ⟨.waitpid 42 none, 42⟩ ∧
    (start_process 1024 launchSucceeds "job.yaml" zeroProcess).trace.getLast?
      = some ⟨.free 4096, 0⟩ := by
  have h := start_process_stack_release 1024 launchSucceeds "job.yaml" zeroProcess (by decide)
  exact ⟨(h.2.2.1 2 (by decide)).1, (h.2.2.2.1 (by decide)).2.1, (h.2.2.2.1 (by decide)).2.2⟩

/-- C7 fails as stated: when the control-pipe read fails, the buffer `malloc`
returned at 4096 is never released before the exit with status 1; when the
write fails, it is released on a run that never called `waitpid`. -/
theorem start_process_stack_not_released_once :
    (⟨.malloc 1024, 4096⟩ : Event) ∈
      (start_process 1024 { launchSucceeds with read := 0 } "job.yaml" zeroProcess).trace ∧
    (start_process 1024 { launchSucceeds with read := 0 } "job.yaml" zeroProcess).out
      = .exit 1 ∧
    releases 4096
      (start_process 1024 { launchSucceeds with read := 0 } "job.yaml" zeroProcess).trace = 0 ∧
    releases 4096
      (start_process 1024 { launchSucceeds with write := 0 } "job.yaml" zeroProcess).trace = 1 ∧
    (start_process 1024 { launchSucceeds with write := 0 } "job.yaml" zeroProcess).trace.all
      (fun e => !e.call.isWaitpid) = true := by
  decide

/-! ## The isolated init never writes to the control pipe -/

theorem prepare_mntns_no_write (o : IsoOracle) (proc : Process) :
    AllEv (fun e => e.call.isWrite = false) (prepare_mntns o proc) := by
  simp only [prepare_mntns, prepare_procfs, sys_bind, ite_bind, graceful_exit_bind,
    run_pure_bind, emit_bind]
  repeat' first
    | apply allEv_graceful_exit
    | apply allEv_sprintf
    | apply allEv_emit
    | apply allEv_ite
    | apply allEv_pure
    | apply allEv_bind
    | intro _
  all_goals rfl

theorem overwrite_env_loop_no_write (o : IsoOracle) (proc : Process)
    (decls : List ProcessEnvVar) :
    ∀ (i : Nat) (E : Environ),
      AllEv (fun e => e.call.isWrite = false) (overwrite_env_loop o proc decls i E) := by
  induction decls with
  | nil =>
    intro i E
    exact allEv_nil _ _
  | cons kv rest ih =>
    intro i E
    simp only [overwrite_env_loop, sys_bind, ite_bind, graceful_exit_bind, run_pure_bind]
    refine allEv_emit _ _ _ (by rfl) ?_
    apply allEv_ite
    · exact allEv_graceful_exit _ _ _ _ (fun _ => rfl)
    · exact ih _ _

theorem overwrite_env_no_write (o : IsoOracle) (proc : Option Process) (E : Environ) :
    AllEv (fun e => e.call.isWrite = false) (overwrite_env o proc E) := by
  unfold overwrite_env
  split
  · exact allEv_nil _ _
  · split
    · exact allEv_nil _ _
    · simp only [sys_bind, ite_bind, graceful_exit_bind, run_pure_bind]
      refine allEv_emit _ _ _ (by rfl) ?_
      apply allEv_ite
      · exact allEv_graceful_exit _ _ _ _ (fun _ => rfl)
      · exact overwrite_env_loop_no_write _ _ _ _ _

theorem execute_job_no_write (o : IsoOracle) (proc : Process) (E : Environ) :
    AllEv (fun e => e.call.isWrite = false) (execute_job o proc E) := by
  unfold execute_job
  split
  · exact ⟨fun e he => by
      rw [List.mem_singleton] at he
      subst he
      rfl⟩
  · simp only [sys_bind, ite_bind, graceful_exit_bind, run_pure_bind]
    refine allEv_emit _ _ _ (by rfl) ?_
    apply allEv_ite
    · exact allEv_graceful_exit _ _ _ _ (fun _ => rfl)
    · exact allEv_graceful_exit _ _ _ _ (fun _ => rfl)

theorem isoproc_loop_no_write (proc : Process) (pid : Int) (l : List (Int × WaitStatus)) :
    AllEv (fun e => e.call.isWrite = false) (isoproc_loop proc pid l) := by
  induction l with
  | nil => exact allEv_nil _ _
  | cons hd tl ih =>
    obtain ⟨r, status⟩ := hd
    simp only [isoproc_loop, sys_bind, ite_bind, graceful_exit_bind, run_pure_bind]
    refine allEv_emit _ _ _ (by rfl) ?_
    apply allEv_ite
    · exact allEv_graceful_exit _ _ _ _ (fun _ => rfl)
    · apply allEv_ite
      · exact allEv_graceful_exit _ _ _ _ (fun _ => rfl)
      · exact ih

/-- C2, the code at the failing input and at every other: no run of `isoproc`
issues a `write`, on the control pipe or elsewhere; when every call succeeds,
`prepare_mntns` completes and the calls that follow it are `clearenv`,
`setenv`, `sethostname`, `fork` and `waitpid`. -/
theorem isoproc_never_writes :
    (∀ (o : IsoOracle) (p : Process) (E : Environ),
      ∀ e ∈ (isoproc o p E).trace, e.call.isWrite = false) ∧
    ((isoproc allSucceed sampleProcess [("PATH", "/bin")]).trace.map Event.call).drop 11
      = [.clearenv, .setenv "FOO" "bar" 1, .sethostname "isoproc" 7, .fork,
          .waitpid 7 (some (.exited 0))] := by
  refine ⟨?_, by decide⟩
  intro o p E
  suffices h : AllEv (fun e => e.call.isWrite = false) (isoproc o p E) from h.all
  simp only [isoproc, prepare_utsns, sys_bind, ite_bind, graceful_exit_bind, run_pure_bind,
    emit_bind]
  refine allEv_emit _ _ _ (by rfl) ?_
  apply allEv_ite
  · exact allEv_graceful_exit _ _ _ _ (fun _ => rfl)
  apply allEv_bind _ _ _ (prepare_mntns_no_write _ _)
  intro process
  apply allEv_bind _ _ _ (overwrite_env_no_write _ _ _)
  intro E2
  refine allEv_emit _ _ _ (by rfl) ?_
  refine allEv_emit _ _ _ (by rfl) ?_
  apply allEv_ite
  · exact allEv_graceful_exit _ _ _ _ (fun _ => rfl)
  apply allEv_ite
  · apply allEv_bind _ _ _ (execute_job_no_write _ _ _)
    intro _
    exact allEv_pure _ _
  · exact isoproc_loop_no_write _ _ _

/-! ## Setup failures of the isolated init -/

theorem releaseOf_isRelease (proc : Process) : ∀ x ∈ releaseOf proc, isRelease x := by
  intro x hx
  unfold releaseOf at hx
  split at hx
  · rw [List.mem_singleton] at hx
    exact ⟨_, hx⟩
  · simp at hx

theorem isRelease_not_failure (o : IsoOracle) (x : Event) (h : isRelease x) :
    ¬ setupFailure o x := by
  obtain ⟨ptr, rfl⟩ := h
  simp [setupFailure]

theorem isRelease_not_fork (x : Event) (h : isRelease x) : x.call ≠ .fork := by
  obtain ⟨ptr, rfl⟩ := h
  simp

theorem seg_nil {α : Type} (o : IsoOracle) (out : Outcome α) : Seg o (⟨[], out⟩ : Run α) :=
  ⟨fun e he => by simp at he, Or.inl (fun e he => by simp at he)⟩

theorem seg_pure {α : Type} (o : IsoOracle) (a : α) : Seg o (pure a : Run α) := seg_nil o _

theorem seg_sprintf (o : IsoOracle) (cap : Nat) (a b : String) : Seg o (sprintf cap a b) := by
  show Seg o (if (a ++ "/" ++ b).utf8ByteSize + 1 ≤ cap
    then Run.pure (a ++ "/" ++ b, ((a ++ "/" ++ b).utf8ByteSize : Int)) else undefinedBehaviour)
  split
  · exact seg_nil o _
  · exact seg_nil o _

theorem seg_graceful_exit {α : Type} (o : IsoOracle) (proc : Process) (msg : String)
    (c : Int) : Seg o (graceful_exit proc msg c : Run α) := by
  refine ⟨fun e he => ?_, Or.inl (fun e he => ?_)⟩
  · rw [graceful_exit_trace] at he
    exact isRelease_not_fork e (releaseOf_isRelease proc e he)
  · rw [graceful_exit_trace] at he
    exact isRelease_not_failure o e (releaseOf_isRelease proc e he)

theorem seg_ite {α : Type} (o : IsoOracle) (c : Prop) [Decidable c] (a b : Run α)
    (ha : Seg o a) (hb : Seg o b) : Seg o (if c then a else b) := by
  split
  · exact ha
  · exact hb

theorem seg_emit {α : Type} (o : IsoOracle) (e : Event) (r : Run α)
    (hf : ¬ setupFailure o e) (hk : e.call ≠ .fork) (hr : Seg o r) : Seg o (emit e r) := by
  refine ⟨fun x hx => ?_, ?_⟩
  · rcases List.mem_cons.mp hx with h | h
    · exact h ▸ hk
    · exact hr.noFork x h
  · rcases hr.halts with hc | hh
    · left
      intro x hx
      rcases List.mem_cons.mp hx with h | h
      · exact h ▸ hf
      · exact hc x h
    · right
      obtain ⟨pre, e0, post, htr, hpre, hpost⟩ := hh.parts
      refine ⟨hh.out, e :: pre, e0, post, ?_, ?_, hpost⟩
      · simp [htr]
      · intro x hx
        rcases List.mem_cons.mp hx with h | h
        · exact h ▸ hf
        · exact hpre x h

theorem seg_emit_check {α : Type} (o : IsoOracle) (e : Event) (c : Prop) [Decidable c]
    (proc : Process) (msg : String) (r : Run α)
    (hc : setupFailure o e → c) (hk : e.call ≠ .fork) (hr : Seg o r) :
    Seg o (emit e (if c then graceful_exit proc msg 1 else r)) := by
  by_cases h : c
  · rw [if_pos h]
    refine ⟨fun x hx => ?_, Or.inr ⟨by simp, [], e, releaseOf proc, by simp, by simp, ?_⟩⟩
    · rcases List.mem_cons.mp hx with h1 | h1
      · exact h1 ▸ hk
      · rw [graceful_exit_trace] at h1
        exact isRelease_not_fork x (releaseOf_isRelease proc x h1)
    · exact releaseOf_isRelease proc
  · rw [if_neg h]
    exact seg_emit o e r (fun hf => h (hc hf)) hk hr

theorem seg_of_stop {α β : Type} (o : IsoOracle) (x : Run α) (f : α → Run β)
    (hx : Seg o x) (hstop : ∀ a, x.out ≠ .ret a) : Seg o (x >>= f) := by
  have ht : (x >>= f).trace = x.trace := bind_trace_stop x f hstop
  refine ⟨fun e he => hx.noFork e (ht ▸ he), ?_⟩
  rcases hx.halts with hc | hh
  · exact Or.inl (fun e he => hc e (ht ▸ he))
  · right
    refine ⟨bind_out_exit x f 1 hh.out, ?_⟩
    rw [ht]
    exact hh.parts

theorem seg_bind {α β : Type} (o : IsoOracle) (x : Run α) (f : α → Run β)
    (hx : Seg o x) (hf : ∀ a, Seg o (f a)) : Seg o (x >>= f) := by
  by_cases hret : ∃ a, x.out = .ret a
  · obtain ⟨a, hout⟩ := hret
    have hclean : ∀ e ∈ x.trace, ¬ setupFailure o e := by
      rcases hx.halts with hc | hh
      · exact hc
      · have := hh.out
        rw [hout] at this
        cases this
    refine ⟨fun e he => ?_, ?_⟩
    · rw [bind_trace_ret x f a hout] at he
      rcases List.mem_append.mp he with h | h
      · exact hx.noFork e h
      · exact (hf a).noFork e h
    · rcases (hf a).halts with hc | hh
      · left
        intro e he
        rw [bind_trace_ret x f a hout] at he
        rcases List.mem_append.mp he with h | h
        · exact hclean e h
        · exact hc e h
      · right
        obtain ⟨pre, e0, post, htr, hpre, hpost⟩ := hh.parts
        refine ⟨by rw [bind_out_ret x f a hout]; exact hh.out, x.trace ++ pre, e0, post, ?_, ?_,
          hpost⟩
        · rw [bind_trace_ret x f a hout, htr, List.append_assoc]
        · intro y hy
          rcases List.mem_append.mp hy with h | h
          · exact hclean y h
          · exact hpre y h
  · exact seg_of_stop o x f hx (fun a h => hret ⟨a, h⟩)

theorem prepare_mntns_seg (o : IsoOracle) (proc : Process) : Seg o (prepare_mntns o proc) := by
  simp only [prepare_mntns, prepare_procfs, sys_bind, ite_bind, graceful_exit_bind,
    run_pure_bind, emit_bind]
  repeat' first
    | apply seg_graceful_exit
    | apply seg_sprintf
    | apply seg_emit_check
    | apply seg_ite
    | apply seg_pure
    | apply seg_bind
    | intro _
  all_goals simp_all [setupFailure]

theorem overwrite_env_loop_seg (o : IsoOracle) (proc : Process) (decls : List ProcessEnvVar) :
    ∀ (i : Nat) (E : Environ), Seg o (overwrite_env_loop o proc decls i E) := by
  induction decls with
  | nil =>
    intro i E
    exact seg_nil o _
  | cons kv rest ih =>
    intro i E
    simp only [overwrite_env_loop, sys_bind, ite_bind, graceful_exit_bind, run_pure_bind]
    apply seg_emit_check
    · intro h
      simp_all [setupFailure]
    · simp
    · exact ih _ _

theorem overwrite_env_seg (o : IsoOracle) (proc : Option Process) (E : Environ) :
    Seg o (overwrite_env o proc E) := by
  unfold overwrite_env
  split
  · exact seg_nil o _
  · split
    · exact seg_nil o _
    · simp only [sys_bind, ite_bind, graceful_exit_bind, run_pure_bind]
      apply seg_emit_check
      · intro h
        simp_all [setupFailure]
      · simp
      · exact overwrite_env_loop_seg _ _ _ _ _

theorem execute_job_clean (o : IsoOracle) (proc : Process) (E : Environ) :
    AllEv (fun e => ¬ setupFailure o e) (execute_job o proc E) := by
  unfold execute_job
  split
  · exact ⟨fun e he => by
      rw [List.mem_singleton] at he
      subst he
      simp [setupFailure]⟩
  · simp only [sys_bind, ite_bind, graceful_exit_bind, run_pure_bind]
    refine allEv_emit _ _ _ (by simp [setupFailure]) ?_
    apply allEv_ite
    · exact allEv_graceful_exit _ _ _ _ (fun _ => by simp [setupFailure])
    · exact allEv_graceful_exit _ _ _ _ (fun _ => by simp [setupFailure])

theorem isoproc_loop_clean (o : IsoOracle) (proc : Process) (pid : Int)
    (l : List (Int × WaitStatus)) :
    AllEv (fun e => ¬ setupFailure o e) (isoproc_loop proc pid l) := by
  induction l with
  | nil => exact allEv_nil _ _
  | cons hd tl ih =>
    obtain ⟨r, status⟩ := hd
    simp only [isoproc_loop, sys_bind, ite_bind, graceful_exit_bind, run_pure_bind]
    refine allEv_emit _ _ _ (by simp [setupFailure]) ?_
    apply allEv_ite
    · exact allEv_graceful_exit _ _ _ _ (fun _ => by simp [setupFailure])
    · apply allEv_ite
      · exact allEv_graceful_exit _ _ _ _ (fun _ => by simp [setupFailure])
      · exact ih

theorem whole_of_clean {α : Type} (o : IsoOracle) (r : Run α)
    (h : AllEv (fun e => ¬ setupFailure o e) r) : Whole o r :=
  ⟨Or.inl h.all⟩

theorem whole_of_seg {α : Type} (o : IsoOracle) (r : Run α) (h : Seg o r) : Whole o r := by
  rcases h.halts with hc | hh
  · exact ⟨Or.inl hc⟩
  · exact ⟨Or.inr ⟨hh, h.noFork⟩⟩

theorem whole_bind {α β : Type} (o : IsoOracle) (x : Run α) (f : α → Run β)
    (hx : Seg o x) (hf : ∀ a, Whole o (f a)) : Whole o (x >>= f) := by
  by_cases hret : ∃ a, x.out = .ret a
  · obtain ⟨a, hout⟩ := hret
    have hclean : ∀ e ∈ x.trace, ¬ setupFailure o e := by
      rcases hx.halts with hc | hh
      · exact hc
      · have := hh.out
        rw [hout] at this
        cases this
    rcases (hf a).halts with hc | ⟨hh, hnf⟩
    · refine ⟨Or.inl (fun e he => ?_)⟩
      rw [bind_trace_ret x f a hout] at he
      rcases List.mem_append.mp he with h | h
      · exact hclean e h
      · exact hc e h
    · obtain ⟨pre, e0, post, htr, hpre, hpost⟩ := hh.parts
      refine ⟨Or.inr ⟨⟨by rw [bind_out_ret x f a hout]; exact hh.out, x.trace ++ pre, e0, post,
        ?_, ?_, hpost⟩, ?_⟩⟩
      · rw [bind_trace_ret x f a hout, htr, List.append_assoc]
      · intro y hy
        rcases List.mem_append.mp hy with h | h
        · exact hclean y h
        · exact hpre y h
      · intro e he
        rw [bind_trace_ret x f a hout] at he
        rcases List.mem_append.mp he with h | h
        · exact hx.noFork e h
        · exact hnf e h
  · exact whole_of_seg o _ (seg_of_stop o x f hx (fun a h => hret ⟨a, h⟩))

theorem whole_emit_check {α : Type} (o : IsoOracle) (e : Event) (c : Prop) [Decidable c]
    (proc : Process) (msg : String) (r : Run α)
    (hc : setupFailure o e → c) (hk : e.call ≠ .fork) (hr : Whole o r) :
    Whole o (emit e (if c then graceful_exit proc msg 1 else r)) := by
  by_cases h : c
  · rw [if_pos h]
    have hs := seg_emit_check o e c proc msg (⟨[], .blocked⟩ : Run α) hc hk (seg_nil o _)
    rw [if_pos h] at hs
    exact whole_of_seg o _ hs
  · rw [if_neg h]
    have hf : ¬ setupFailure o e := fun hf => h (hc hf)
    rcases hr.halts with hcl | ⟨hh, hnf⟩
    · refine ⟨Or.inl (fun x hx => ?_)⟩
      rcases List.mem_cons.mp hx with h1 | h1
      · exact h1 ▸ hf
      · exact hcl x h1
    · obtain ⟨pre, e0, post, htr, hpre, hpost⟩ := hh.parts
      refine ⟨Or.inr ⟨⟨hh.out, e :: pre, e0, post, by simp [htr], ?_, hpost⟩, ?_⟩⟩
      · intro x hx
        rcases List.mem_cons.mp hx with h1 | h1
        · exact h1 ▸ hf
        · exact hpre x h1
      · intro x hx
        rcases List.mem_cons.mp hx with h1 | h1
        · exact h1 ▸ hk
        · exact hnf x h1

theorem isoproc_whole (o : IsoOracle) (p : Process) (E : Environ) :
    Whole o (isoproc o p E) := by
  simp only [isoproc, prepare_utsns, sys_bind, ite_bind, graceful_exit_bind, run_pure_bind,
    emit_bind]
  apply whole_emit_check
  · intro h
    simp_all [setupFailure]
  · simp
  apply whole_bind _ _ _ (prepare_mntns_seg _ _)
  intro process
  apply whole_bind _ _ _ (overwrite_env_seg _ _ _)
  intro E2
  apply whole_of_clean
  refine allEv_emit _ _ _ (by simp [setupFailure]) ?_
  refine allEv_emit _ _ _ (by simp [setupFailure]) ?_
  apply allEv_ite
  · exact allEv_graceful_exit _ _ _ _ (fun _ => by simp [setupFailure])
  apply allEv_ite
  · apply allEv_bind _ _ _ (execute_job_clean _ _ _)
    intro _
    exact allEv_pure _ _
  · exact isoproc_loop_clean _ _ _ _

/-- C5 (as amended): in every run of `isoproc`, when a `chdir`, a `mount`,
`pivot_root`, `umount2`, `rmdir`, `clearenv`, a `setenv` or a `mkdir` returns
-1 (for the `mkdir` of `/proc`: for another reason than `EEXIST`), the run
leaves with status 1, after the failing call only the release of the handle by
`graceful_exit` happens, and `fork` is not called in the run. -/
theorem isoproc_setup_failure (o : IsoOracle) (p : Process) (E : Environ) (e : Event)
    (he : e ∈ (isoproc o p E).trace) (hf : setupFailure o e) :
    (isoproc o p E).out = .exit 1 ∧
    (∃ pre post, (isoproc o p E).trace = pre ++ e :: post ∧
      ∀ x ∈ post, ∃ ptr, x = ⟨.free ptr, 0⟩) ∧
    ∀ x ∈ (isoproc o p E).trace, x.call ≠ .fork := by
  rcases (isoproc_whole o p E).halts with hc | ⟨hh, hnf⟩
  · exact absurd hf (hc e he)
  · obtain ⟨pre, e0, post, htr, hpre, hpost⟩ := hh.parts
    have hmem : e ∈ pre ++ e0 :: post := htr ▸ he
    have he0 : e = e0 := by
      rcases List.mem_append.mp hmem with h | h
      · exact absurd hf (hpre e h)
      · rcases List.mem_cons.mp h with h1 | h1
        · exact h1
        · exact absurd hf (isRelease_not_failure o e (hpost e h1))
    subst he0
    exact ⟨hh.out, ⟨pre, post, htr, hpost⟩, hnf⟩

/-- C5 (as amended) on the run in which `rmdir` fails. -/
theorem isoproc_setup_failure_witness :
    (isoproc { allSucceed with rmdir := -1 } sampleProcess []).out = .exit 1 ∧
    (∃ pre post, (isoproc { allSucceed with rmdir := -1 } sampleProcess []).trace
        = pre ++ ⟨.rmdir ".put_old", -1⟩ :: post ∧
      ∀ x ∈ post, ∃ ptr, x = ⟨.free ptr, 0⟩) ∧
    ∀ x ∈ (isoproc { allSucceed with rmdir := -1 } sampleProcess []).trace, x.call ≠ .fork :=
  isoproc_setup_failure { allSucceed with rmdir := -1 } sampleProcess []
    ⟨.rmdir ".put_old", -1⟩ (by decide) (by simp [setupFailure])

/-- C5 fails as stated: when the `mkdir` of `/proc` in `prepare_procfs` fails
with `EEXIST` and every other call succeeds, `isoproc` goes on with the next
setup step, the mount of procfs, and later forks; when `sethostname` returns -1
and every other call succeeds, the next call is `fork`. -/
theorem isoproc_continues_after_failed_step :
    ((isoproc { allSucceed with mkdir_proc := -1, mkdir_proc_errno := EEXIST }
        sampleProcess []).trace.drop 7).take 2
      = [⟨.mkdir "/proc" 0o555, -1⟩,
          ⟨.mount (some "proc") "/proc" (some "proc") 0 (some ""), 0⟩] ∧
    (⟨.fork, 7⟩ : Event) ∈
      (isoproc { allSucceed with mkdir_proc := -1, mkdir_proc_errno := EEXIST }
        sampleProcess []).trace ∧
    ((isoproc { allSucceed with sethostname := -1 } sampleProcess []).trace.drop 13)
      = [⟨.sethostname "isoproc" 7, -1⟩, ⟨.fork, 7⟩, ⟨.waitpid 7 (some (.exited 0)), 7⟩] := by
  decide

end Procmand
